import Mathlib

/-! Flooper: audio pucks on an XY pad.

A shallow embedding of `src/js/audio-puck.js` (class `AudioPuck`) and of the canvas
listeners of `src/js/ui-listner.js`, followed by theorems about them.

Modelling conventions.

* JavaScript numbers are modelled by an arbitrary linearly ordered field `α` (exact
  arithmetic: `ℚ` for evaluation, `ℝ` where a square root is needed).  Rounding of IEEE
  doubles and `NaN` are outside the model.
* `Math.hypot` is a parameter `hypot : α → α → α`; theorems that need its value assume
  `hypot a b = √(a² + b²)` over `ℝ`.
* A Tone.js audio parameter (`delay.wet`, `reverb.wet`, `distortion.wet`, `eq.low`,
  `volume.volume`) is modelled by one number: the level it was last set to, or is ramping
  to (`x.value = v` and `x.linearRampToValueAtTime(v, t)` both store `v`).
* The globals `canvas`, `window.innerWidth`, `window.innerHeight` and `corners` are gathered
  in a `PadEnv`; the globals `pucks`, `draggingPuckIndex`, `hoveredPuckIndex` and the canvas
  cursor in a `Controller`.
* `Array.prototype.findIndex` returns `Option Nat` (`none` for `-1`).
* The state of the Tone.js audio context and transport is an input of the listeners and
  callbacks that read it (`contextRunning`, `transportStarted`), not a modelled state.
* `deletePuck` and `undoDeletePuck` are defined outside `src/` and are modelled from the spec.
-/

set_option linter.unusedSectionVars false

namespace Flooper

/-! ## Data model -/

/-- A point `{x, y}`. -/
structure Point (α : Type) where
  x : α
  y : α
deriving DecidableEq, Repr

/-- The part of the global `canvas` element the code reads. -/
structure Canvas (α : Type) where
  width : α
  height : α
deriving DecidableEq, Repr

/-- The global `corners` object: the anchor of each effect. -/
structure Corners (α : Type) where
  delay : Point α
  reverb : Point α
  distortion : Point α
  eq : Point α
deriving DecidableEq, Repr

/-- The globals read by `AudioPuck`: `canvas` (possibly missing), the window's inner size and
`corners`. -/
structure PadEnv (α : Type) where
  canvas : Option (Canvas α)
  innerWidth : α
  innerHeight : α
  corners : Corners α
deriving DecidableEq, Repr

/-- The fields of an `AudioPuck` instance.  `delayWet`, `reverbWet`, `distortionWet`, `eqLow`
and `volumeNode` stand for the parameters `delay.wet`, `reverb.wet`, `distortion.wet`, `eq.low`
and `volume.volume` of its Tone.js nodes; `disposed` holds when `player` and the node fields
have been set to `null` by `dispose`. -/
structure AudioPuck (α : Type) where
  index : Nat
  url : String
  filename : String
  isRecorded : Bool
  x : α
  y : α
  radius : α
  isPlaying : Bool
  isLoaded : Bool
  loadError : Bool
  volumeValue : α
  deleteButtonRadius : α
  delayWet : α
  reverbWet : α
  distortionWet : α
  eqLow : α
  volumeNode : α
  disposed : Bool := false
deriving DecidableEq, Repr

/-- The value of the JavaScript expression `a || b` for numbers, where `a` may be `undefined`
(`none`): `a` when it is truthy (defined and non-zero), `b` otherwise. -/
def jsOr {α : Type} [DecidableEq α] [Zero α] (a : Option α) (b : α) : α :=
  match a with
  | some v => if v = 0 then b else v
  | none => b

variable {α : Type} [LinearOrderedField α]

/-! ## `AudioPuck` methods (`src/js/audio-puck.js`) -/

namespace AudioPuck

/-- The method `getDeleteButtonPosition`. -/
def getDeleteButtonPosition (p : AudioPuck α) : Point α :=
  let offsetX := p.radius * (707 / 1000)
  let offsetY := -p.radius * (707 / 1000)
  { x := p.x + offsetX, y := p.y + offsetY }

/-- The method `isDeleteHit(mx, my)`. -/
def isDeleteHit (p : AudioPuck α) (mx my : α) : Bool :=
  let pos := p.getDeleteButtonPosition
  let dx := mx - pos.x
  let dy := my - pos.y
  decide (dx * dx + dy * dy ≤ p.deleteButtonRadius * p.deleteButtonRadius)

/-- The method `isHit(mx, my)`. -/
def isHit (p : AudioPuck α) (mx my : α) : Bool :=
  let dx := mx - p.x
  let dy := my - p.y
  decide (dx * dx + dy * dy ≤ p.radius * p.radius)

/-- The local `currentWidth` of `updateEffects`: `canvas?.width || window.innerWidth`. -/
def currentWidth (env : PadEnv α) : α :=
  jsOr (env.canvas.map Canvas.width) env.innerWidth

/-- The local `currentHeight` of `updateEffects`: `canvas?.height || window.innerHeight`. -/
def currentHeight (env : PadEnv α) : α :=
  jsOr (env.canvas.map Canvas.height) env.innerHeight

/-- The local `maxDist` of `updateEffects`: `Math.hypot(currentWidth, currentHeight)`. -/
def maxDist (hypot : α → α → α) (env : PadEnv α) : α :=
  hypot (currentWidth env) (currentHeight env)

/-- The local arrow function `d` of `updateEffects`, applied to the puck and an anchor. -/
def d (hypot : α → α → α) (p : AudioPuck α) (c : Point α) : α :=
  hypot (p.x - c.x) (p.y - c.y)

/-- The proximity expression of `updateEffects`: `1 - Math.min(d(this, c) / maxDist, 1)`. -/
def prox (hypot : α → α → α) (env : PadEnv α) (p : AudioPuck α) (c : Point α) : α :=
  1 - min (AudioPuck.d hypot p c / maxDist hypot env) 1

/-- The method `updateEffects`. -/
def updateEffects (hypot : α → α → α) (env : PadEnv α) (p : AudioPuck α) : AudioPuck α :=
  if !p.isLoaded || p.loadError then
    { p with delayWet := 0, reverbWet := 0, distortionWet := 0, eqLow := 0 }
  else if maxDist hypot env = 0 then p
  else
    let delayProx := prox hypot env p env.corners.delay
    let reverbProx := prox hypot env p env.corners.reverb
    let distortionProx := prox hypot env p env.corners.distortion
    let eqProx := prox hypot env p env.corners.eq
    let eqDB := (eqProx - 1 / 2) * 24
    { p with
      delayWet := delayProx * (1 / 2)
      reverbWet := reverbProx
      distortionWet := distortionProx * (1 / 2)
      eqLow := eqDB }

/-- The method `setVolume(delta)`.  Both branches of its `if (this.isLoaded && ...)` give the
volume node the target `this.volumeValue`. -/
def setVolume (p : AudioPuck α) (delta : α) : AudioPuck α :=
  let dbChange : α := if delta < 0 then 2 else -2
  let currentVol := p.volumeValue
  let volumeValue := max (-48) (min 6 (currentVol + dbChange))
  let minVol : α := -48
  let maxVol : α := 6
  let minRadius : α := 12
  let maxRadius : α := 35
  let norm := (volumeValue - minVol) / (maxVol - minVol)
  { p with
    volumeValue := volumeValue
    volumeNode := volumeValue
    radius := minRadius + max 0 (min 1 norm) * (maxRadius - minRadius) }

/-- The radius expression that ends `setVolume`, `minRadius + Math.max(0, Math.min(1, norm)) *
(maxRadius - minRadius)` with `norm = (v - minVol) / (maxVol - minVol)`, as a function of the
stored volume `v`. -/
def volumeRadius (v : α) : α :=
  12 + max 0 (min 1 ((v - (-48)) / (6 - (-48)))) * (35 - 12)

/-- The constructor `new AudioPuck(index, audioUrl, filename, isRecorded)` on its normal path
(no exception from Tone.js).  `rx` and `ry` are the two results of `Math.random()`.  The nodes
are created with `wet: 0` and `low: 0`, the volume node with `this.volumeValue`, and the call
of `updateEffects` that ends the constructor is made. -/
def create (hypot : α → α → α) (env : PadEnv α) (rx ry : α)
    (index : Nat) (audioUrl filename : String) (isRecorded : Bool) : AudioPuck α :=
  let initialX := jsOr (env.canvas.map fun c => c.width / 2) 300 + (rx - 1 / 2) * 100
  let initialY := jsOr (env.canvas.map fun c => c.height / 2) 300 + (ry - 1 / 2) * 100
  updateEffects hypot env
    { index := index
      url := audioUrl
      filename := filename
      isRecorded := isRecorded
      x := initialX
      y := initialY
      radius := 20
      isPlaying := false
      isLoaded := false
      loadError := false
      volumeValue := 0
      deleteButtonRadius := 8
      delayWet := 0
      reverbWet := 0
      distortionWet := 0
      eqLow := 0
      volumeNode := 0 }

/-- The `onload` callback of the puck's `Tone.Player`.  `isTransportRunning` is the global
flag, `transportStarted` is `Tone.Transport.state === 'started'`. -/
def onload (p : AudioPuck α) (isTransportRunning transportStarted : Bool) : AudioPuck α :=
  let p1 := { p with isLoaded := true, loadError := false }
  if isTransportRunning && transportStarted then { p1 with isPlaying := true } else p1

/-- The `onerror` callback of the puck's `Tone.Player`. -/
def onerror (p : AudioPuck α) : AudioPuck α :=
  { p with loadError := true, isLoaded := false }

/-- The method `dispose`: the player is stopped and unsynced, the player and the nodes are
disposed and their fields set to `null`.  The blob URL is not revoked, and no other field
(`url`, position, volume, `isPlaying`) is written. -/
def dispose (p : AudioPuck α) : AudioPuck α :=
  { p with disposed := true }

/-- The drag step of the `mousemove` listener on the dragged puck:
`puck.x = x; puck.y = y; puck.updateEffects()`. -/
def dragTo (hypot : α → α → α) (env : PadEnv α) (p : AudioPuck α) (x y : α) : AudioPuck α :=
  updateEffects hypot env { p with x := x, y := y }

end AudioPuck

/-! ## The life of one puck -/

/-- What can happen to one puck after its construction: a drag move to `(x, y)` (under the
globals `env` of that moment), a wheel event with `deltaY = delta`, and the two callbacks of
its player. -/
inductive PuckEvent (α : Type) where
  | drag (env : PadEnv α) (x y : α)
  | wheel (delta : α)
  | onload (isTransportRunning transportStarted : Bool)
  | onerror

/-- The event is a load completion or a load failure. -/
def PuckEvent.isLoadEvent : PuckEvent α → Bool
  | .onload _ _ => true
  | .onerror => true
  | _ => false

/-- The effect of one event on a puck. -/
def AudioPuck.step (hypot : α → α → α) (p : AudioPuck α) : PuckEvent α → AudioPuck α
  | .drag env x y => p.dragTo hypot env x y
  | .wheel delta => p.setVolume delta
  | .onload r t => p.onload r t
  | .onerror => p.onerror

/-- The effect of a sequence of events, first event first. -/
def AudioPuck.run (hypot : α → α → α) (p : AudioPuck α) (es : List (PuckEvent α)) :
    AudioPuck α :=
  es.foldl (AudioPuck.step hypot) p

/-! ## Canvas listeners (`src/js/ui-listner.js`) -/

/-- The values the listeners give to `canvas.style.cursor`. -/
inductive Cursor where
  | crosshair
  | grab
  | grabbing
  | pointer
deriving DecidableEq, Repr

/-- The globals the listeners read and write.  `pendingUndo` is the state kept by
`deletePuck` and `undoDeletePuck`, which are defined outside `src/`: the last deleted puck, if
any (spec §3). -/
structure Controller (α : Type) where
  pucks : List (AudioPuck α)
  draggingPuckIndex : Option Nat
  hoveredPuckIndex : Option Nat
  cursor : Cursor
  pendingUndo : Option (AudioPuck α)
  isTransportRunning : Bool := false

/-- The array method `findIndex`: the index of the first element that satisfies `f`. -/
def findIndex {β : Type} (f : β → Bool) : List β → Option Nat
  | [] => none
  | b :: l => if f b then some 0 else (findIndex f l).map (· + 1)

/-- The expression shared by the `mousedown` and `mousemove` listeners: with
`r = pucks.slice().reverse().findIndex(p => p.isHit(x, y))`, the index
`pucks.length - 1 - r` when `r !== -1`. -/
def topHit (pucks : List (AudioPuck α)) (x y : α) : Option Nat :=
  match findIndex (fun p => p.isHit x y) pucks.reverse with
  | some reversedIndex => some (pucks.length - 1 - reversedIndex)
  | none => none

/-- The `mousedown` listener at the canvas point `(x, y)`.  The global function `deletePuck`
(defined outside `src/`) is a parameter acting on the globals. -/
def mousedown (deletePuck : Nat → Controller α → Controller α) (s : Controller α) (x y : α) :
    Controller α :=
  if s.pucks.length = 0 then s
  else
    let afterDelete : Option (Controller α) :=
      match s.hoveredPuckIndex with
      | some h =>
        match s.pucks[h]? with
        | some hoveredPuck =>
          if hoveredPuck.isDeleteHit x y then
            some { deletePuck h s with
              draggingPuckIndex := none
              hoveredPuckIndex := none
              cursor := Cursor.crosshair }
          else none
        | none => none
      | none => none
    match afterDelete with
    | some s1 => s1
    | none =>
      match topHit s.pucks x y with
      | some i => { s with draggingPuckIndex := some i, cursor := Cursor.grabbing }
      | none => { s with draggingPuckIndex := none }

/-- The `mousemove` listener at the canvas point `(x, y)`. -/
def mousemove (hypot : α → α → α) (env : PadEnv α) (s : Controller α) (x y : α) :
    Controller α :=
  let s1 := { s with hoveredPuckIndex := topHit s.pucks x y }
  let s2 :=
    if s1.draggingPuckIndex = none then
      match s1.hoveredPuckIndex with
      | some h =>
        if (s1.pucks[h]?.map fun p => p.isDeleteHit x y) = some true then
          { s1 with cursor := Cursor.pointer }
        else { s1 with cursor := Cursor.grab }
      | none => { s1 with cursor := Cursor.crosshair }
    else s1
  match s2.draggingPuckIndex with
  | some d =>
    match s2.pucks[d]? with
    | some puck =>
      { s2 with pucks := s2.pucks.set d (puck.dragTo hypot env x y), cursor := Cursor.grabbing }
    | none => s2
  | none => s2

/-- Modelled from the spec: the global function `deletePuck(index)`, defined outside `src/`
(§4.4: delete "removes the entity from `ordering`, releases its live audio resources ...,
moves it into `pendingUndo`, and clears `hoveredId`/`draggingId` if they referenced it").  The
release of the audio resources is the method `dispose`. -/
def deletePuck (index : Nat) (s : Controller α) : Controller α :=
  match s.pucks[index]? with
  | some p =>
    { s with
      pucks := s.pucks.eraseIdx index
      pendingUndo := some p.dispose
      hoveredPuckIndex := if s.hoveredPuckIndex = some index then none else s.hoveredPuckIndex
      draggingPuckIndex :=
        if s.draggingPuckIndex = some index then none else s.draggingPuckIndex }
  | none => s

/-- Modelled from the spec: the re-creation of a deleted puck's live audio resources, part
of the global function `undoDeletePuck` defined outside `src/` (§4.4: undo "re-creates/reattaches
the entity's live audio resources from its retained source reference").  The entity keeps its
data (source reference, position, volume, radius); the player is new, hence loading and
stopped, and the nodes are new, with the levels the constructor gives them. -/
def AudioPuck.reattach (p : AudioPuck α) : AudioPuck α :=
  { p with
    disposed := false
    isLoaded := false
    loadError := false
    isPlaying := false
    delayWet := 0
    reverbWet := 0
    distortionWet := 0
    eqLow := 0
    volumeNode := p.volumeValue }

/-- Modelled from the spec: the global function `undoDeletePuck()`, defined outside `src/`
(§4.4: "if `pendingUndo` is non-empty, re-creates/reattaches the entity's live audio resources
from its retained source reference, appends it to the end of `ordering` (topmost), and clears
`pendingUndo`.  No-op if `pendingUndo` is empty"). -/
def undoDeletePuck (s : Controller α) : Controller α :=
  match s.pendingUndo with
  | some p => { s with pucks := s.pucks ++ [p.reattach], pendingUndo := none }
  | none => s

/-- The `click` listener of the play/toggle button.  `contextRunning` tells whether
`Tone.context.state` is `'running'` once `Tone.start()` has been tried (the listener returns
otherwise, also on an exception); `transportStarted` is `Tone.Transport.state === 'started'`
at that moment. -/
def playToggle (s : Controller α) (contextRunning transportStarted : Bool) : Controller α :=
  if !contextRunning then s
  else
    let operationalPucks := s.pucks.filter fun p => p.isLoaded && !p.loadError
    if !transportStarted then
      if operationalPucks.length > 0 then
        { s with
          pucks := s.pucks.map fun p =>
            if p.isLoaded && !p.loadError then { p with isPlaying := true } else p
          isTransportRunning := true }
      else s
    else
      { s with
        pucks := s.pucks.map fun p => { p with isPlaying := false }
        isTransportRunning := false }

/-- The states reached from `s0` by clicks on the play/toggle button and by the load callbacks
of the pucks, where `onerror` fires only on a puck that is loading. -/
inductive PlayReachable (s0 : Controller α) : Controller α → Prop where
  | init : PlayReachable s0 s0
  | toggle (s : Controller α) (contextRunning transportStarted : Bool) :
      PlayReachable s0 s → PlayReachable s0 (playToggle s contextRunning transportStarted)
  | onload (s : Controller α) (i : Nat) (p : AudioPuck α) (transportStarted : Bool) :
      PlayReachable s0 s → s.pucks[i]? = some p →
      PlayReachable s0
        { s with pucks := s.pucks.set i (p.onload s.isTransportRunning transportStarted) }
  | onerror (s : Controller α) (i : Nat) (p : AudioPuck α) :
      PlayReachable s0 s → s.pucks[i]? = some p → p.isLoaded = false → p.loadError = false →
      PlayReachable s0 { s with pucks := s.pucks.set i p.onerror }

/-- The `mouseup` listener at the canvas point `(x, y)`. -/
def mouseup (s : Controller α) (x y : α) : Controller α :=
  match s.draggingPuckIndex with
  | some _ =>
    let cursor :=
      match s.hoveredPuckIndex with
      | some h =>
        if (s.pucks[h]?.map fun p => p.isDeleteHit x y) = some true then Cursor.pointer
        else Cursor.grab
      | none => Cursor.crosshair
    { s with cursor := cursor, draggingPuckIndex := none }
  | none => s

/-- The `mouseleave` listener. -/
def mouseleave (s : Controller α) : Controller α :=
  { s with draggingPuckIndex := none, hoveredPuckIndex := none, cursor := Cursor.crosshair }

/-- The `wheel` listener for an event with `deltaY = deltaY`. -/
def wheel (s : Controller α) (deltaY : α) : Controller α :=
  match s.hoveredPuckIndex with
  | some h =>
    match s.pucks[h]? with
    | some puck => { s with pucks := s.pucks.set h (puck.setVolume deltaY) }
    | none => s
  | none => s

/-- The creation of a puck by the file-input listener and by the `onstop` callback of the
recorder: `new AudioPuck(pucks.length, url, filename, isRecorded)` is pushed on `pucks`. -/
def addPuck (hypot : α → α → α) (env : PadEnv α) (s : Controller α) (rx ry : α)
    (audioUrl filename : String) (isRecorded : Bool) : Controller α :=
  { s with
    pucks := s.pucks ++
      [AudioPuck.create hypot env rx ry s.pucks.length audioUrl filename isRecorded] }

/-- The events that act on the puck list and on the two indices: the five canvas listeners,
the creation of a puck and the undo button.  A delete happens inside `mousedown`, the only
caller of `deletePuck` under `src/`. -/
inductive CanvasEvent (α : Type) where
  | mousedown (x y : α)
  | mousemove (env : PadEnv α) (x y : α)
  | mouseup (x y : α)
  | mouseleave
  | wheel (deltaY : α)
  | addPuck (env : PadEnv α) (rx ry : α) (audioUrl filename : String) (isRecorded : Bool)
  | undo

/-- The effect of one event on the globals. -/
def Controller.step (deletePuck : Nat → Controller α → Controller α) (hypot : α → α → α)
    (s : Controller α) : CanvasEvent α → Controller α
  | .mousedown x y => mousedown deletePuck s x y
  | .mousemove env x y => mousemove hypot env s x y
  | .mouseup x y => mouseup s x y
  | .mouseleave => mouseleave s
  | .wheel deltaY => wheel s deltaY
  | .addPuck env rx ry audioUrl filename isRecorded =>
    addPuck hypot env s rx ry audioUrl filename isRecorded
  | .undo => undoDeletePuck s

/-- The effect of a sequence of events, first event first. -/
def Controller.run (deletePuck : Nat → Controller α → Controller α) (hypot : α → α → α)
    (s : Controller α) (es : List (CanvasEvent α)) : Controller α :=
  es.foldl (Controller.step deletePuck hypot) s

/-- The globals when the page starts: no puck, nothing dragged, nothing hovered. -/
def initialController : Controller α :=
  { pucks := []
    draggingPuckIndex := none
    hoveredPuckIndex := none
    cursor := Cursor.crosshair
    pendingUndo := none }

/-! ## Invariants -/

/-- `hoveredPuckIndex` and `draggingPuckIndex` are each `null` or an index of `pucks`. -/
def IndexValid (s : Controller α) : Prop :=
  (∀ h, s.hoveredPuckIndex = some h → h < s.pucks.length) ∧
    (∀ d, s.draggingPuckIndex = some d → d < s.pucks.length)


/-- What every event sequence keeps true of the volume and the radius: the volume is in
`[-48, 6]`, and the radius is either the constructor's 20 (with the volume still 0) or the
radius `setVolume` derives from the volume. -/
def AudioPuck.VolumeInv (p : AudioPuck α) : Prop :=
  (-48 ≤ p.volumeValue ∧ p.volumeValue ≤ 6) ∧
    ((p.radius = 20 ∧ p.volumeValue = 0) ∨ p.radius = AudioPuck.volumeRadius p.volumeValue)

/-- All four effect levels of the puck are 0. -/
def AudioPuck.EffectsZero (p : AudioPuck α) : Prop :=
  p.delayWet = 0 ∧ p.reverbWet = 0 ∧ p.distortionWet = 0 ∧ p.eqLow = 0

/-- The puck is `Loading` or `Failed`: the guard `!this.isLoaded || this.loadError` of
`updateEffects` holds. -/
def AudioPuck.NotReady (p : AudioPuck α) : Prop :=
  p.isLoaded = false ∨ p.loadError = true

/-- Every puck of the list that is playing is ready (loaded, without load error). -/
def PlayingAreReady (s : Controller α) : Prop :=
  ∀ p ∈ s.pucks, p.isPlaying = true → p.isLoaded = true ∧ p.loadError = false

/-- The point `a` is one of the four corners of the rectangle of the canvas `c`, whose
top-left corner is the origin. -/
def IsCorner (c : Canvas α) (a : Point α) : Prop :=
  (a.x = 0 ∨ a.x = c.width) ∧ (a.y = 0 ∨ a.y = c.height)

/-! ## Sample values -/

/-- A 600 by 600 pad with the four effect anchors on its corners. -/
def samplePad : PadEnv ℚ :=
  { canvas := some { width := 600, height := 600 }
    innerWidth := 1280
    innerHeight := 720
    corners :=
      { delay := { x := 0, y := 0 }
        reverb := { x := 600, y := 0 }
        distortion := { x := 0, y := 600 }
        eq := { x := 600, y := 600 } } }

/-- A stand-in for `Math.hypot` on rationals (the taxicab length), for evaluating operations
whose result does not depend on it. -/
def sampleHypot (a b : ℚ) : ℚ := |a| + |b|

/-- A freshly constructed puck at the centre of `samplePad`. -/
def samplePuck : AudioPuck ℚ :=
  AudioPuck.create sampleHypot samplePad (1 / 2) (1 / 2) 0 "blob:a" "a.wav" false

/-- A drag, a wheel event, a load failure and a later drag. -/
def sampleEvents : List (PuckEvent ℚ) :=
  [PuckEvent.drag samplePad 10 10, PuckEvent.wheel (-120), PuckEvent.onerror,
    PuckEvent.drag samplePad 200 300]

/-- A pad whose canvas has width 0 and height 3, in a window of inner width 4, with the delay
anchor at the origin. -/
def zeroWidthPad : PadEnv α :=
  { canvas := some { width := 0, height := 3 }
    innerWidth := 4
    innerHeight := 7
    corners :=
      { delay := { x := 0, y := 0 }
        reverb := { x := 0, y := 0 }
        distortion := { x := 0, y := 3 }
        eq := { x := 0, y := 3 } } }

/-- A pad whose canvas is 4 wide and 3 high, with the four anchors on its corners. -/
def smallPad : PadEnv α :=
  { canvas := some { width := 4, height := 3 }
    innerWidth := 1280
    innerHeight := 720
    corners :=
      { delay := { x := 0, y := 0 }
        reverb := { x := 4, y := 0 }
        distortion := { x := 0, y := 3 }
        eq := { x := 4, y := 3 } } }

/-- A loaded puck (after `onload`) at the point `(0, 3)`. -/
def readyPuck : AudioPuck α :=
  { index := 0
    url := "blob:a"
    filename := "a.wav"
    isRecorded := false
    x := 0
    y := 3
    radius := 20
    isPlaying := false
    isLoaded := true
    loadError := false
    volumeValue := 0
    deleteButtonRadius := 8
    delayWet := 0
    reverbWet := 0
    distortionWet := 0
    eqLow := 0
    volumeNode := 0 }

/-- The loaded puck `readyPuck` placed at `(x, y)`. -/
def puckAt (x y : α) : AudioPuck α :=
  { (readyPuck : AudioPuck α) with x := x, y := y }

/-- Two overlapping pucks, the first at `(0, 0)` and the second at `(10, 0)`, nothing dragged,
the pointer last seen over the second puck. -/
def sampleController : Controller ℚ :=
  { pucks := [puckAt 0 0, puckAt 10 0]
    draggingPuckIndex := none
    hoveredPuckIndex := some 1
    cursor := Cursor.grab
    pendingUndo := none }

/-- A pad whose canvas has width 0 and height 0, in a window 4 wide and 3 high, with the four
anchors at the origin. -/
def zeroSizePad : PadEnv α :=
  { canvas := some { width := 0, height := 0 }
    innerWidth := 4
    innerHeight := 3
    corners :=
      { delay := { x := 0, y := 0 }
        reverb := { x := 0, y := 0 }
        distortion := { x := 0, y := 0 }
        eq := { x := 0, y := 0 } } }

/-- A 600 by 600 pad with the four anchors on its corners. -/
def squarePad : PadEnv α :=
  { canvas := some { width := 600, height := 600 }
    innerWidth := 1280
    innerHeight := 720
    corners :=
      { delay := { x := 0, y := 0 }
        reverb := { x := 600, y := 0 }
        distortion := { x := 0, y := 600 }
        eq := { x := 600, y := 600 } } }

/-- A pad whose canvas and window both have width 0 and height 0. -/
def nullPad : PadEnv α :=
  { canvas := some { width := 0, height := 0 }
    innerWidth := 0
    innerHeight := 0
    corners :=
      { delay := { x := 0, y := 0 }
        reverb := { x := 0, y := 0 }
        distortion := { x := 0, y := 0 }
        eq := { x := 0, y := 0 } } }

/-- One puck at `(0, 0)`, nothing dragged, nothing hovered. -/
def unhoveredController : Controller ℚ :=
  { pucks := [puckAt 0 0]
    draggingPuckIndex := none
    hoveredPuckIndex := none
    cursor := Cursor.crosshair
    pendingUndo := none }

/-- The two sample pucks, the second one being dragged. -/
def draggingController : Controller ℚ :=
  { pucks := [puckAt 0 0, puckAt 10 0]
    draggingPuckIndex := some 1
    hoveredPuckIndex := some 1
    cursor := Cursor.grabbing
    pendingUndo := none }

/-- Two ready pucks of radius 20 at `(0, 0)` and `(10, 0)`, the second one being dragged and
hovered. -/
def dragPair : Controller α :=
  { pucks := [puckAt 0 0, puckAt 10 0]
    draggingPuckIndex := some 1
    hoveredPuckIndex := some 1
    cursor := Cursor.grabbing
    pendingUndo := none }

/-- Two pucks are created, the pointer moves over them, a press starts a drag, the pointer
moves away, the button is released and the wheel is turned. -/
def sampleCanvasEvents : List (CanvasEvent ℚ) :=
  [CanvasEvent.addPuck samplePad (1 / 2) (1 / 2) "blob:a" "a.wav" false,
    CanvasEvent.addPuck samplePad (1 / 2) (1 / 2) "blob:b" "b.wav" false,
    CanvasEvent.mousemove samplePad 300 300,
    CanvasEvent.mousedown 300 300,
    CanvasEvent.mousemove samplePad 500 100,
    CanvasEvent.mouseup 500 100,
    CanvasEvent.wheel (-120),
    CanvasEvent.undo]

/-! ## Frame lemmas -/

namespace AudioPuck

theorem updateEffects_volumeValue (hypot : α → α → α) (env : PadEnv α) (p : AudioPuck α) :
    (updateEffects hypot env p).volumeValue = p.volumeValue := by
  unfold updateEffects; split_ifs <;> rfl

theorem updateEffects_radius (hypot : α → α → α) (env : PadEnv α) (p : AudioPuck α) :
    (updateEffects hypot env p).radius = p.radius := by
  unfold updateEffects; split_ifs <;> rfl

theorem updateEffects_isLoaded (hypot : α → α → α) (env : PadEnv α) (p : AudioPuck α) :
    (updateEffects hypot env p).isLoaded = p.isLoaded := by
  unfold updateEffects; split_ifs <;> rfl

theorem updateEffects_loadError (hypot : α → α → α) (env : PadEnv α) (p : AudioPuck α) :
    (updateEffects hypot env p).loadError = p.loadError := by
  unfold updateEffects; split_ifs <;> rfl

theorem create_volumeValue (hypot : α → α → α) (env : PadEnv α) (rx ry : α) (index : Nat)
    (audioUrl filename : String) (isRecorded : Bool) :
    (create hypot env rx ry index audioUrl filename isRecorded).volumeValue = 0 := by
  unfold create; rw [updateEffects_volumeValue]

theorem create_radius (hypot : α → α → α) (env : PadEnv α) (rx ry : α) (index : Nat)
    (audioUrl filename : String) (isRecorded : Bool) :
    (create hypot env rx ry index audioUrl filename isRecorded).radius = 20 := by
  unfold create; rw [updateEffects_radius]

theorem onload_volumeValue (p : AudioPuck α) (r t : Bool) :
    (p.onload r t).volumeValue = p.volumeValue := by
  unfold onload; split_ifs <;> rfl

theorem onload_radius (p : AudioPuck α) (r t : Bool) :
    (p.onload r t).radius = p.radius := by
  unfold onload; split_ifs <;> rfl

theorem setVolume_volumeValue (p : AudioPuck α) (delta : α) :
    (p.setVolume delta).volumeValue
      = max (-48) (min 6 (p.volumeValue + if delta < 0 then 2 else -2)) := rfl

theorem setVolume_radius (p : AudioPuck α) (delta : α) :
    (p.setVolume delta).radius = volumeRadius (p.setVolume delta).volumeValue := rfl

theorem setVolume_volume_range (p : AudioPuck α) (delta : α) :
    -48 ≤ (p.setVolume delta).volumeValue ∧ (p.setVolume delta).volumeValue ≤ 6 := by
  rw [setVolume_volumeValue]
  exact ⟨le_max_left _ _, max_le (by norm_num) (min_le_left _ _)⟩

theorem volumeRadius_mono {v1 v2 : α} (h : v1 ≤ v2) : volumeRadius v1 ≤ volumeRadius v2 := by
  unfold volumeRadius
  gcongr

theorem volumeRadius_range (v : α) : 12 ≤ volumeRadius v ∧ volumeRadius v ≤ 35 := by
  unfold volumeRadius
  have h0 : (0 : α) ≤ max 0 (min 1 ((v - (-48)) / (6 - (-48)))) := le_max_left _ _
  have h1 : max 0 (min 1 ((v - (-48)) / (6 - (-48)))) ≤ (1 : α) :=
    max_le zero_le_one (min_le_left _ _)
  constructor <;> nlinarith

theorem volumeRadius_formula (v : α) :
    volumeRadius v = 12 + max 0 (min 1 ((v + 48) / 54)) * 23 := by
  unfold volumeRadius
  norm_num

theorem volumeInv_create (hypot : α → α → α) (env : PadEnv α) (rx ry : α) (index : Nat)
    (audioUrl filename : String) (isRecorded : Bool) :
    VolumeInv (create hypot env rx ry index audioUrl filename isRecorded) := by
  unfold VolumeInv
  rw [create_volumeValue, create_radius]
  exact ⟨⟨by norm_num, by norm_num⟩, Or.inl ⟨rfl, rfl⟩⟩

theorem volumeInv_step (hypot : α → α → α) (p : AudioPuck α) (e : PuckEvent α)
    (h : VolumeInv p) : VolumeInv (p.step hypot e) := by
  cases e with
  | drag env x y =>
    unfold VolumeInv step dragTo
    rw [updateEffects_volumeValue, updateEffects_radius]
    exact h
  | wheel delta =>
    exact ⟨setVolume_volume_range p delta, Or.inr (setVolume_radius p delta)⟩
  | onload r t =>
    show VolumeInv (p.onload r t)
    unfold VolumeInv
    rw [onload_volumeValue, onload_radius]
    exact h
  | onerror => exact h

theorem volumeInv_run (hypot : α → α → α) (es : List (PuckEvent α)) (p : AudioPuck α)
    (h : VolumeInv p) : VolumeInv (p.run hypot es) := by
  induction es generalizing p with
  | nil => exact h
  | cons e es ih => exact ih _ (volumeInv_step hypot p e h)

theorem foldl_setVolume_range (deltas : List α) (p : AudioPuck α)
    (h : -48 ≤ p.volumeValue ∧ p.volumeValue ≤ 6) :
    -48 ≤ (deltas.foldl setVolume p).volumeValue ∧
      (deltas.foldl setVolume p).volumeValue ≤ 6 := by
  induction deltas generalizing p with
  | nil => exact h
  | cons d ds ih => exact ih _ (setVolume_volume_range p d)

theorem volumeRadius_zero : volumeRadius (0 : α) = 292 / 9 := by
  unfold volumeRadius
  rw [min_eq_right (by norm_num), max_eq_right (by norm_num)]
  norm_num

theorem volumeRadius_two : volumeRadius (2 : α) = 899 / 27 := by
  unfold volumeRadius
  rw [min_eq_right (by norm_num), max_eq_right (by norm_num)]
  norm_num

/-! ### Effects of pucks that are not ready -/

theorem updateEffects_of_notReady (hypot : α → α → α) (env : PadEnv α) (p : AudioPuck α)
    (h : NotReady p) :
    updateEffects hypot env p
      = { p with delayWet := 0, reverbWet := 0, distortionWet := 0, eqLow := 0 } := by
  unfold updateEffects
  have hc : (!p.isLoaded || p.loadError) = true := by
    rcases h with h | h <;> simp [h]
  rw [if_pos hc]

theorem updateEffects_effectsZero (hypot : α → α → α) (env : PadEnv α) (p : AudioPuck α)
    (h : NotReady p) : EffectsZero (updateEffects hypot env p) := by
  rw [updateEffects_of_notReady hypot env p h]
  exact ⟨rfl, rfl, rfl, rfl⟩

theorem create_loading (hypot : α → α → α) (env : PadEnv α) (rx ry : α) (index : Nat)
    (audioUrl filename : String) (isRecorded : Bool) :
    (create hypot env rx ry index audioUrl filename isRecorded).isLoaded = false ∧
    (create hypot env rx ry index audioUrl filename isRecorded).loadError = false ∧
    EffectsZero (create hypot env rx ry index audioUrl filename isRecorded) := by
  unfold create
  refine ⟨?_, ?_, updateEffects_effectsZero _ _ _ (Or.inl rfl)⟩
  · rw [updateEffects_isLoaded]
  · rw [updateEffects_loadError]

/-- A drag or a wheel event leaves the load flags alone, and keeps the effects of a puck that
is not ready at 0. -/
theorem step_of_not_loadEvent (hypot : α → α → α) (p : AudioPuck α) (e : PuckEvent α)
    (he : e.isLoadEvent = false) :
    (p.step hypot e).isLoaded = p.isLoaded ∧ (p.step hypot e).loadError = p.loadError ∧
    (NotReady p → EffectsZero p → EffectsZero (p.step hypot e)) := by
  cases e with
  | drag env x y =>
    refine ⟨?_, ?_, fun hn _ => updateEffects_effectsZero hypot env { p with x := x, y := y } hn⟩
    · show (updateEffects hypot env { p with x := x, y := y }).isLoaded = p.isLoaded
      rw [updateEffects_isLoaded]
    · show (updateEffects hypot env { p with x := x, y := y }).loadError = p.loadError
      rw [updateEffects_loadError]
  | wheel delta => exact ⟨rfl, rfl, fun _ hz => hz⟩
  | onload r t => simp [PuckEvent.isLoadEvent] at he
  | onerror => simp [PuckEvent.isLoadEvent] at he

/-- A sequence without load callbacks leaves the load flags alone and keeps the effects of a
puck that is not ready at 0. -/
theorem run_of_no_loadEvent (hypot : α → α → α) (es : List (PuckEvent α)) (p : AudioPuck α)
    (hes : es.countP PuckEvent.isLoadEvent = 0) :
    (p.run hypot es).isLoaded = p.isLoaded ∧ (p.run hypot es).loadError = p.loadError ∧
    (NotReady p → EffectsZero p → EffectsZero (p.run hypot es)) := by
  induction es generalizing p with
  | nil => exact ⟨rfl, rfl, fun _ hz => hz⟩
  | cons e es ih =>
    have he : e.isLoadEvent = false := by
      cases h : e.isLoadEvent
      · rfl
      · rw [List.countP_cons_of_pos _ _ h] at hes; omega
    rw [List.countP_cons_of_neg _ _ (by simp [he])] at hes
    obtain ⟨h1, h2, h3⟩ := step_of_not_loadEvent hypot p e he
    obtain ⟨i1, i2, i3⟩ := ih (p.step hypot e) hes
    refine ⟨i1.trans h1, i2.trans h2, fun hn hz => i3 ?_ (h3 hn hz)⟩
    unfold NotReady at hn ⊢
    rw [h1, h2]; exact hn

/-- From a `Loading` puck with all effects at 0, a sequence with at most one load callback
ends in a puck whose effects are at 0 unless it is ready. -/
theorem run_notReady_effectsZero (hypot : α → α → α) (es : List (PuckEvent α))
    (p : AudioPuck α) (hes : es.countP PuckEvent.isLoadEvent ≤ 1)
    (hl : p.isLoaded = false) (hz : EffectsZero p) :
    NotReady (p.run hypot es) → EffectsZero (p.run hypot es) := by
  induction es generalizing p with
  | nil => exact fun _ => hz
  | cons e es ih =>
    cases h : e.isLoadEvent
    · rw [List.countP_cons_of_neg _ _ (by simp [h])] at hes
      obtain ⟨h1, _, h3⟩ := step_of_not_loadEvent hypot p e h
      exact ih (p.step hypot e) hes (h1.trans hl) (h3 (Or.inl hl) hz)
    · rw [List.countP_cons_of_pos _ _ h] at hes
      have hes0 : es.countP PuckEvent.isLoadEvent = 0 := by omega
      obtain ⟨i1, i2, i3⟩ := run_of_no_loadEvent hypot es (p.step hypot e) hes0
      cases e with
      | drag env x y => simp [PuckEvent.isLoadEvent] at h
      | wheel delta => simp [PuckEvent.isLoadEvent] at h
      | onload r t =>
        intro hn
        exfalso
        have hn2 : ((p.step hypot (PuckEvent.onload r t)).run hypot es).isLoaded = false ∨
            ((p.step hypot (PuckEvent.onload r t)).run hypot es).loadError = true := hn
        rw [i1, i2] at hn2
        have a1 : (p.step hypot (PuckEvent.onload r t)).isLoaded = true := by
          show (p.onload r t).isLoaded = true
          unfold onload; split_ifs <;> rfl
        have a2 : (p.step hypot (PuckEvent.onload r t)).loadError = false := by
          show (p.onload r t).loadError = false
          unfold onload; split_ifs <;> rfl
        rw [a1, a2] at hn2
        simp at hn2
      | onerror =>
        intro _
        exact i3 (Or.inr rfl) hz

/-! ### Effects of a ready puck -/

theorem updateEffects_of_ready (hypot : α → α → α) (env : PadEnv α) (p : AudioPuck α)
    (hl : p.isLoaded = true) (he : p.loadError = false) (hm : maxDist hypot env ≠ 0) :
    updateEffects hypot env p
      = { p with
          delayWet := prox hypot env p env.corners.delay * (1 / 2)
          reverbWet := prox hypot env p env.corners.reverb
          distortionWet := prox hypot env p env.corners.distortion * (1 / 2)
          eqLow := (prox hypot env p env.corners.eq - 1 / 2) * 24 } := by
  unfold updateEffects
  rw [if_neg (by simp [hl, he]), if_neg hm]

/-- With a non-negative `hypot` and a positive `maxDist`, a proximity lies in `[0, 1]`. -/
theorem prox_range (hypot : α → α → α) (hnn : ∀ a b, 0 ≤ hypot a b) (env : PadEnv α)
    (p : AudioPuck α) (c : Point α) (hm : 0 < maxDist hypot env) :
    0 ≤ prox hypot env p c ∧ prox hypot env p c ≤ 1 := by
  unfold prox
  have h0 : 0 ≤ AudioPuck.d hypot p c / maxDist hypot env := div_nonneg (hnn _ _) hm.le
  have h1 : min (AudioPuck.d hypot p c / maxDist hypot env) 1 ≤ 1 := min_le_right _ _
  have h2 : 0 ≤ min (AudioPuck.d hypot p c / maxDist hypot env) 1 := le_min h0 zero_le_one
  constructor <;> linarith

/-- The four levels `updateEffects` sets are in their ranges when `maxDist` is positive. -/
theorem updateEffects_ranges (hypot : α → α → α) (hnn : ∀ a b, 0 ≤ hypot a b) (env : PadEnv α)
    (p : AudioPuck α) (hm : 0 < maxDist hypot env) :
    (0 ≤ (updateEffects hypot env p).delayWet ∧ (updateEffects hypot env p).delayWet ≤ 1 / 2) ∧
    (0 ≤ (updateEffects hypot env p).distortionWet ∧
      (updateEffects hypot env p).distortionWet ≤ 1 / 2) ∧
    (0 ≤ (updateEffects hypot env p).reverbWet ∧ (updateEffects hypot env p).reverbWet ≤ 1) ∧
    (-12 ≤ (updateEffects hypot env p).eqLow ∧ (updateEffects hypot env p).eqLow ≤ 12) := by
  by_cases hr : NotReady p
  · rw [updateEffects_of_notReady hypot env p hr]
    norm_num
  · have hl : p.isLoaded = true := by
      cases h : p.isLoaded
      · exact absurd (Or.inl h) hr
      · rfl
    have he : p.loadError = false := by
      cases h : p.loadError
      · rfl
      · exact absurd (Or.inr h) hr
    rw [updateEffects_of_ready hypot env p hl he hm.ne.symm]
    obtain ⟨a0, a1⟩ := prox_range hypot hnn env p env.corners.delay hm
    obtain ⟨b0, b1⟩ := prox_range hypot hnn env p env.corners.reverb hm
    obtain ⟨c0, c1⟩ := prox_range hypot hnn env p env.corners.distortion hm
    obtain ⟨d0, d1⟩ := prox_range hypot hnn env p env.corners.eq hm
    refine ⟨⟨?_, ?_⟩, ⟨?_, ?_⟩, ⟨?_, ?_⟩, ⟨?_, ?_⟩⟩ <;> dsimp only <;> linarith

/-- A canvas with a non-zero width or height makes the code's `maxDist` positive. -/
theorem maxDist_pos_of_canvas (hypot : ℝ → ℝ → ℝ)
    (hh : ∀ a b, hypot a b = Real.sqrt (a ^ 2 + b ^ 2)) (env : PadEnv ℝ) (c : Canvas ℝ)
    (hc : env.canvas = some c) (hpos : 0 < Real.sqrt (c.width ^ 2 + c.height ^ 2)) :
    0 < maxDist hypot env := by
  unfold maxDist
  rw [hh, Real.sqrt_pos]
  rw [Real.sqrt_pos] at hpos
  unfold currentWidth currentHeight
  rw [hc]
  simp only [Option.map_some', jsOr]
  by_cases hw : c.width = 0
  · have hhne : c.height ≠ 0 := by
      intro h0; rw [hw, h0] at hpos; norm_num at hpos
    rw [if_pos hw, if_neg hhne]
    have : 0 < c.height ^ 2 := by positivity
    positivity
  · rw [if_neg hw]
    have : 0 < c.width ^ 2 := by positivity
    positivity

end AudioPuck

/-! ## The effect mapping (claims C1 and C2) -/

open AudioPuck

/-- C1 (amended): for a Ready puck, when the diagonal `maxDistance = sqrt(W^2 + H^2)` is
positive, where `W` is `currentWidth env` (the canvas width when the canvas exists and its
width is not 0, the window's inner width otherwise) and `H` is `currentHeight env` (likewise),
`updateEffects` sets `delayWet = 0.5 * p_delay`, `reverbWet = p_reverb`,
`distortionWet = 0.5 * p_distortion` and `eqLowGainDb = (p_eq - 0.5) * 24`, with
`p = 1 - min(distance(puck, anchor) / maxDistance, 1)` for each anchor; a puck on the delay
anchor has proximity 1 and `delayWet = 0.5`; and for a canvas of non-zero width and height,
`W` and `H` are the width and height of the canvas. -/
theorem C1_updateEffects_targets (hypot : ℝ → ℝ → ℝ)
    (hh : ∀ a b, hypot a b = Real.sqrt (a ^ 2 + b ^ 2)) (env : PadEnv ℝ) (p : AudioPuck ℝ)
    (hl : p.isLoaded = true) (he : p.loadError = false)
    (hmax : 0 < Real.sqrt (currentWidth env ^ 2 + currentHeight env ^ 2)) :
    (updateEffects hypot env p).delayWet
      = 1 / 2 * (1 - min (Real.sqrt ((p.x - env.corners.delay.x) ^ 2
          + (p.y - env.corners.delay.y) ^ 2)
          / Real.sqrt (currentWidth env ^ 2 + currentHeight env ^ 2)) 1) ∧
    (updateEffects hypot env p).reverbWet
      = 1 - min (Real.sqrt ((p.x - env.corners.reverb.x) ^ 2
          + (p.y - env.corners.reverb.y) ^ 2)
          / Real.sqrt (currentWidth env ^ 2 + currentHeight env ^ 2)) 1 ∧
    (updateEffects hypot env p).distortionWet
      = 1 / 2 * (1 - min (Real.sqrt ((p.x - env.corners.distortion.x) ^ 2
          + (p.y - env.corners.distortion.y) ^ 2)
          / Real.sqrt (currentWidth env ^ 2 + currentHeight env ^ 2)) 1) ∧
    (updateEffects hypot env p).eqLow
      = ((1 - min (Real.sqrt ((p.x - env.corners.eq.x) ^ 2 + (p.y - env.corners.eq.y) ^ 2)
          / Real.sqrt (currentWidth env ^ 2 + currentHeight env ^ 2)) 1) - 1 / 2) * 24 ∧
    (p.x = env.corners.delay.x → p.y = env.corners.delay.y →
      prox hypot env p env.corners.delay = 1 ∧ (updateEffects hypot env p).delayWet = 1 / 2) ∧
    (∀ c : Canvas ℝ, env.canvas = some c → c.width ≠ 0 → c.height ≠ 0 →
      currentWidth env = c.width ∧ currentHeight env = c.height) := by
  have hm : maxDist hypot env ≠ 0 := by
    unfold maxDist; rw [hh]; exact hmax.ne.symm
  rw [updateEffects_of_ready hypot env p hl he hm]
  refine ⟨?_, ?_, ?_, ?_, ?_, ?_⟩
  · simp only [prox, AudioPuck.d, maxDist, hh]; ring
  · simp only [prox, AudioPuck.d, maxDist, hh]
  · simp only [prox, AudioPuck.d, maxDist, hh]; ring
  · simp only [prox, AudioPuck.d, maxDist, hh]
  · intro hx hy
    have h1 : prox hypot env p env.corners.delay = 1 := by
      simp only [prox, AudioPuck.d, hh, hx, hy]
      norm_num
    refine ⟨h1, ?_⟩
    show prox hypot env p env.corners.delay * (1 / 2) = 1 / 2
    rw [h1]; norm_num
  · intro c hc hw hht
    unfold currentWidth currentHeight
    rw [hc]
    simp only [Option.map_some', jsOr]
    rw [if_neg hw, if_neg hht]
    exact ⟨rfl, rfl⟩

/-- The diagonal of `smallPad` is positive. -/
theorem smallPad_diagonal_pos :
    0 < Real.sqrt (currentWidth (smallPad : PadEnv ℝ) ^ 2 + currentHeight smallPad ^ 2) := by
  rw [Real.sqrt_pos]
  simp only [currentWidth, currentHeight, smallPad, Option.map_some', jsOr]
  norm_num

/-- Witness of C1: the ready puck at `(0, 3)` on the 4 by 3 pad. -/
theorem C1_updateEffects_targets_witness :
    (readyPuck : AudioPuck ℝ).isLoaded = true ∧ (readyPuck : AudioPuck ℝ).loadError = false ∧
    0 < Real.sqrt (currentWidth (smallPad : PadEnv ℝ) ^ 2 + currentHeight smallPad ^ 2) ∧
    (updateEffects (fun a b => Real.sqrt (a ^ 2 + b ^ 2)) smallPad readyPuck).reverbWet
      = 1 - min (Real.sqrt (((readyPuck : AudioPuck ℝ).x - (smallPad : PadEnv ℝ).corners.reverb.x) ^ 2
          + ((readyPuck : AudioPuck ℝ).y - (smallPad : PadEnv ℝ).corners.reverb.y) ^ 2)
          / Real.sqrt (currentWidth (smallPad : PadEnv ℝ) ^ 2 + currentHeight smallPad ^ 2)) 1 :=
  ⟨rfl, rfl, smallPad_diagonal_pos,
    (C1_updateEffects_targets (fun a b => Real.sqrt (a ^ 2 + b ^ 2)) (fun _ _ => rfl)
      smallPad readyPuck rfl rfl smallPad_diagonal_pos).2.1⟩

/-- C1 as stated fails when the canvas has width 0: on a canvas 0 wide and 3 high (diagonal
3) in a window of inner width 4, the code takes `currentWidth = 4`, so `maxDist = 5`, and a
ready puck at distance 3 from the delay anchor gets `delayWet = 1/5`, where the claim's formula
with the pad's diagonal gives `0.5 * (1 - min(3 / 3, 1)) = 0`. -/
theorem C1_counterexample_zero_width_canvas :
    (zeroWidthPad : PadEnv ℝ).canvas = some { width := 0, height := 3 } ∧
    (readyPuck : AudioPuck ℝ).isLoaded = true ∧ (readyPuck : AudioPuck ℝ).loadError = false ∧
    Real.sqrt ((0 : ℝ) ^ 2 + 3 ^ 2) = 3 ∧
    (updateEffects (fun a b => Real.sqrt (a ^ 2 + b ^ 2)) zeroWidthPad
      (readyPuck : AudioPuck ℝ)).delayWet = 1 / 5 ∧
    (1 / 2 : ℝ) * (1 - min (Real.sqrt (((readyPuck : AudioPuck ℝ).x
          - (zeroWidthPad : PadEnv ℝ).corners.delay.x) ^ 2
        + ((readyPuck : AudioPuck ℝ).y - (zeroWidthPad : PadEnv ℝ).corners.delay.y) ^ 2)
        / Real.sqrt ((0 : ℝ) ^ 2 + 3 ^ 2)) 1) = 0 := by
  have h3 : Real.sqrt ((0 : ℝ) ^ 2 + 3 ^ 2) = 3 := by
    rw [show ((0 : ℝ) ^ 2 + 3 ^ 2) = 3 ^ 2 by norm_num]
    exact Real.sqrt_sq (by norm_num)
  have h5 : Real.sqrt ((4 : ℝ) ^ 2 + 3 ^ 2) = 5 := by
    rw [show ((4 : ℝ) ^ 2 + 3 ^ 2) = 5 ^ 2 by norm_num]
    exact Real.sqrt_sq (by norm_num)
  have hd : Real.sqrt (((readyPuck : AudioPuck ℝ).x
          - (zeroWidthPad : PadEnv ℝ).corners.delay.x) ^ 2
        + ((readyPuck : AudioPuck ℝ).y - (zeroWidthPad : PadEnv ℝ).corners.delay.y) ^ 2) = 3 := by
    simp only [readyPuck, zeroWidthPad]
    rw [show (((0 : ℝ) - 0) ^ 2 + (3 - 0) ^ 2) = 3 ^ 2 by norm_num]
    exact Real.sqrt_sq (by norm_num)
  have hm : maxDist (fun a b => Real.sqrt (a ^ 2 + b ^ 2)) (zeroWidthPad : PadEnv ℝ) = 5 := by
    simp only [maxDist, currentWidth, currentHeight, zeroWidthPad, Option.map_some', jsOr]
    rw [if_pos trivial, if_neg (by norm_num)]
    exact h5
  refine ⟨rfl, rfl, rfl, h3, ?_, ?_⟩
  · rw [updateEffects_of_ready _ _ _ rfl rfl (by rw [hm]; norm_num)]
    show prox _ _ _ _ * (1 / 2) = 1 / 5
    unfold prox
    rw [hm]
    unfold AudioPuck.d
    simp only []
    rw [hd]
    norm_num
  · rw [hd, h3]; norm_num

/-- C2: for every puck (any position, inside or outside the pad), every anchor placement and
every pad with `maxDistance > 0` (the code's `maxDist`, or the diagonal of the canvas), the
levels `updateEffects` sets satisfy `delayWet ∈ [0, 0.5]`, `distortionWet ∈ [0, 0.5]`,
`reverbWet ∈ [0, 1]` and `eqLowGainDb ∈ [-12, 12]`. -/
theorem C2_effect_ranges (hypot : ℝ → ℝ → ℝ)
    (hh : ∀ a b, hypot a b = Real.sqrt (a ^ 2 + b ^ 2)) (env : PadEnv ℝ) (p : AudioPuck ℝ)
    (hmax : 0 < maxDist hypot env ∨
      ∃ c : Canvas ℝ, env.canvas = some c ∧ 0 < Real.sqrt (c.width ^ 2 + c.height ^ 2)) :
    (0 ≤ (updateEffects hypot env p).delayWet ∧ (updateEffects hypot env p).delayWet ≤ 1 / 2) ∧
    (0 ≤ (updateEffects hypot env p).distortionWet ∧
      (updateEffects hypot env p).distortionWet ≤ 1 / 2) ∧
    (0 ≤ (updateEffects hypot env p).reverbWet ∧ (updateEffects hypot env p).reverbWet ≤ 1) ∧
    (-12 ≤ (updateEffects hypot env p).eqLow ∧ (updateEffects hypot env p).eqLow ≤ 12) := by
  have hm : 0 < maxDist hypot env := by
    rcases hmax with h | ⟨c, hc, hpos⟩
    · exact h
    · exact maxDist_pos_of_canvas hypot hh env c hc hpos
  exact updateEffects_ranges hypot (fun a b => by rw [hh]; exact Real.sqrt_nonneg _) env p hm

/-- Witness of C2: the ready puck at `(0, 3)` on the canvas 0 wide and 3 high. -/
theorem C2_effect_ranges_witness :
    (∃ c : Canvas ℝ, (zeroWidthPad : PadEnv ℝ).canvas = some c ∧
      0 < Real.sqrt (c.width ^ 2 + c.height ^ 2)) ∧
    0 ≤ (updateEffects (fun a b => Real.sqrt (a ^ 2 + b ^ 2)) zeroWidthPad
      (readyPuck : AudioPuck ℝ)).delayWet ∧
    (updateEffects (fun a b => Real.sqrt (a ^ 2 + b ^ 2)) zeroWidthPad
      (readyPuck : AudioPuck ℝ)).delayWet ≤ 1 / 2 :=
  have hc : ∃ c : Canvas ℝ, (zeroWidthPad : PadEnv ℝ).canvas = some c ∧
      0 < Real.sqrt (c.width ^ 2 + c.height ^ 2) :=
    ⟨{ width := 0, height := 3 }, rfl, Real.sqrt_pos.mpr (by norm_num)⟩
  ⟨hc, (C2_effect_ranges (fun a b => Real.sqrt (a ^ 2 + b ^ 2)) (fun _ _ => rfl)
    zeroWidthPad readyPuck (Or.inr hc)).1⟩

/-! ## Volume and radius (claims C4 to C8) -/

/-- C4: for every finite sequence of wheel deltas applied through `setVolume` to a freshly
constructed puck (whose `volumeValue` is 0), the volume lies in `[-48, 6]` after every step,
that is after every prefix `deltas.take k` of the sequence. -/
theorem C4_volume_stays_in_range (hypot : α → α → α) (env : PadEnv α) (rx ry : α)
    (index : Nat) (audioUrl filename : String) (isRecorded : Bool)
    (deltas : List α) (k : Nat) :
    (create hypot env rx ry index audioUrl filename isRecorded).volumeValue = 0 ∧
    -48 ≤ ((deltas.take k).foldl setVolume
        (create hypot env rx ry index audioUrl filename isRecorded)).volumeValue ∧
    ((deltas.take k).foldl setVolume
        (create hypot env rx ry index audioUrl filename isRecorded)).volumeValue ≤ 6 := by
  refine ⟨create_volumeValue _ _ _ _ _ _ _ _, foldl_setVolume_range _ _ ?_⟩
  rw [create_volumeValue]
  exact ⟨by norm_num, by norm_num⟩

/-- C5: in every state a puck reaches from its construction (by drags, wheel events and load
callbacks), `setVolume(delta)` moves the volume by a fixed step before clamping: a negative
`delta` gives `min(6, old + 2)`, a positive one `max(-48, old - 2)`; and `delta = -120` at
volume 0 gives volume 2 and a radius larger than before. -/
theorem C5_setVolume_fixed_step (hypot : α → α → α) (env : PadEnv α) (rx ry : α)
    (index : Nat) (audioUrl filename : String) (isRecorded : Bool)
    (es : List (PuckEvent α)) (p : AudioPuck α)
    (hp : p = (create hypot env rx ry index audioUrl filename isRecorded).run hypot es) :
    (∀ delta : α, delta < 0 → (p.setVolume delta).volumeValue = min 6 (p.volumeValue + 2)) ∧
    (∀ delta : α, 0 < delta → (p.setVolume delta).volumeValue = max (-48) (p.volumeValue - 2)) ∧
    (p.volumeValue = 0 →
      (p.setVolume (-120)).volumeValue = 2 ∧ p.radius < (p.setVolume (-120)).radius) := by
  have hinv : VolumeInv p := by
    rw [hp]; exact volumeInv_run hypot es _ (volumeInv_create _ _ _ _ _ _ _ _)
  obtain ⟨⟨hlo, hhi⟩, hrad⟩ := hinv
  refine ⟨?_, ?_, ?_⟩
  · intro delta hd
    rw [setVolume_volumeValue, if_pos hd]
    exact max_eq_right (le_min (by norm_num) (by linarith))
  · intro delta hd
    rw [setVolume_volumeValue, if_neg (not_lt.mpr hd.le)]
    have h : min 6 (p.volumeValue + -2) = p.volumeValue - 2 := by
      rw [min_eq_right (by linarith)]; ring
    rw [h]
  · intro h0
    have hneg : (-120 : α) < 0 := by norm_num
    have hv : (p.setVolume (-120)).volumeValue = 2 := by
      rw [setVolume_volumeValue, if_pos hneg, h0]
      rw [min_eq_right (by norm_num), max_eq_right (by norm_num)]
      norm_num
    refine ⟨hv, ?_⟩
    rw [setVolume_radius, hv, volumeRadius_two]
    rcases hrad with ⟨h20, _⟩ | hr
    · rw [h20]; norm_num
    · rw [hr, h0, volumeRadius_zero]; norm_num

/-- Witness of C5: on the freshly constructed sample puck, one wheel event of delta -120
raises the volume from 0 to `min 6 (0 + 2)`. -/
theorem C5_setVolume_fixed_step_witness :
    (-120 : ℚ) < 0 ∧
      (samplePuck.setVolume (-120)).volumeValue = min 6 (samplePuck.volumeValue + 2) :=
  ⟨by norm_num,
    (C5_setVolume_fixed_step sampleHypot samplePad (1 / 2) (1 / 2) 0 "blob:a" "a.wav" false []
      samplePuck rfl).1 (-120) (by norm_num)⟩

/-- C6: after every `setVolume` call the radius is
`12 + clamp01((volumeDb + 48) / 54) * (35 - 12)` for the new, clamped volume; a puck `q` with
the same volume as `p`, whatever its radius, position and load or play state, gets the same
radius. -/
theorem C6_setVolume_radius (p q : AudioPuck α) (delta : α) :
    (p.setVolume delta).radius
        = 12 + max 0 (min 1 (((p.setVolume delta).volumeValue + 48) / 54)) * (35 - 12) ∧
    (q.volumeValue = p.volumeValue → (q.setVolume delta).radius = (p.setVolume delta).radius) := by
  constructor
  · rw [setVolume_radius, volumeRadius_formula]; norm_num
  · intro h
    rw [setVolume_radius, setVolume_radius, setVolume_volumeValue, setVolume_volumeValue, h]

/-- Witness of C6: the sample puck, and the same puck moved, resized, loaded and playing. -/
theorem C6_setVolume_radius_witness :
    ({ samplePuck with x := 5, y := 7, radius := 30, isLoaded := true, isPlaying := true }
        : AudioPuck ℚ).volumeValue = samplePuck.volumeValue ∧
      (({ samplePuck with x := 5, y := 7, radius := 30, isLoaded := true, isPlaying := true }
        : AudioPuck ℚ).setVolume 3).radius = (samplePuck.setVolume 3).radius :=
  ⟨rfl, (C6_setVolume_radius samplePuck
    { samplePuck with x := 5, y := 7, radius := 30, isLoaded := true, isPlaying := true }
    3).2 rfl⟩

/-- C7 (the code departs from the claim): a freshly constructed puck has `volumeValue = 0`
and `radius = 20`, while the radius derived from volume 0 is
`12 + clamp01((0 + 48) / 54) * 23 = 292 / 9`; so at construction the radius is not the value
derived from the volume. -/
theorem C7_radius_at_construction (hypot : α → α → α) (env : PadEnv α) (rx ry : α)
    (index : Nat) (audioUrl filename : String) (isRecorded : Bool) :
    (create hypot env rx ry index audioUrl filename isRecorded).volumeValue = 0 ∧
    (create hypot env rx ry index audioUrl filename isRecorded).radius = 20 ∧
    12 + max 0 (min 1
        (((create hypot env rx ry index audioUrl filename isRecorded).volumeValue + 48) / 54))
      * 23 = (292 / 9 : α) ∧
    (create hypot env rx ry index audioUrl filename isRecorded).radius ≠
      12 + max 0 (min 1
        (((create hypot env rx ry index audioUrl filename isRecorded).volumeValue + 48) / 54))
      * 23 := by
  have hf : 12 + max 0 (min 1
        (((create hypot env rx ry index audioUrl filename isRecorded).volumeValue + 48) / 54))
      * 23 = (292 / 9 : α) := by
    rw [← volumeRadius_formula, create_volumeValue, volumeRadius_zero]
  refine ⟨create_volumeValue _ _ _ _ _ _ _ _, create_radius _ _ _ _ _ _ _ _, hf, ?_⟩
  rw [hf, create_radius]
  norm_num

/-- C8: the radius `setVolume` computes is the function `volumeRadius` of the new volume,
`volumeRadius v = 12 + clamp01((v + 48) / 54) * 23`; this function is monotonically
non-decreasing and takes its values in `[12, 35]`. -/
theorem C8_radius_monotone (p : AudioPuck α) (delta v1 v2 : α) :
    (p.setVolume delta).radius = volumeRadius (p.setVolume delta).volumeValue ∧
    volumeRadius v1 = 12 + max 0 (min 1 ((v1 + 48) / 54)) * 23 ∧
    (v1 ≤ v2 →
      12 + max 0 (min 1 ((v1 + 48) / 54)) * 23 ≤ 12 + max 0 (min 1 ((v2 + 48) / 54)) * 23) ∧
    12 ≤ volumeRadius v1 ∧ volumeRadius v1 ≤ 35 := by
  refine ⟨setVolume_radius p delta, volumeRadius_formula v1, ?_, volumeRadius_range v1⟩
  intro h
  rw [← volumeRadius_formula, ← volumeRadius_formula]
  exact volumeRadius_mono h

/-- Witness of C8: the radii derived from the volumes -10 and 4. -/
theorem C8_radius_monotone_witness :
    (-10 : ℚ) ≤ 4 ∧
      12 + max 0 (min 1 (((-10 : ℚ) + 48) / 54)) * 23
        ≤ 12 + max 0 (min 1 (((4 : ℚ) + 48) / 54)) * 23 :=
  ⟨by norm_num, (C8_radius_monotone samplePuck 0 (-10) 4).2.2.1 (by norm_num)⟩

/-! ## Effects of pucks that are not ready (claim C3) -/

/-- C3: in every state a puck reaches from its construction (on the constructor's normal path)
by drag moves, wheel events and at most one load callback (`onload` or `onerror`), a puck that
is Loading (`isLoaded` false) or Failed (`loadError` true) has its four effect levels at 0; and
`updateEffects` on any puck that is Loading or Failed sets the four levels to 0, whatever its
position and the pad. -/
theorem C3_not_ready_effects_zero (hypot : α → α → α) (env : PadEnv α) (rx ry : α)
    (index : Nat) (audioUrl filename : String) (isRecorded : Bool)
    (es : List (PuckEvent α)) (hes : es.countP PuckEvent.isLoadEvent ≤ 1) :
    (NotReady ((create hypot env rx ry index audioUrl filename isRecorded).run hypot es) →
      EffectsZero ((create hypot env rx ry index audioUrl filename isRecorded).run hypot es)) ∧
    (∀ (q : AudioPuck α) (env1 : PadEnv α), NotReady q →
      EffectsZero (updateEffects hypot env1 q)) := by
  obtain ⟨hl, _, hz⟩ := create_loading hypot env rx ry index audioUrl filename isRecorded
  exact ⟨run_notReady_effectsZero hypot es _ hes hl hz,
    fun q env1 hq => updateEffects_effectsZero hypot env1 q hq⟩

/-- Witness of C3: the sample puck after a drag, a wheel event, a load failure and another
drag is Failed and has its four effect levels at 0. -/
theorem C3_not_ready_effects_zero_witness :
    sampleEvents.countP PuckEvent.isLoadEvent ≤ 1 ∧
      NotReady (samplePuck.run sampleHypot sampleEvents) ∧
      EffectsZero (samplePuck.run sampleHypot sampleEvents) :=
  have hn : NotReady (samplePuck.run sampleHypot sampleEvents) := Or.inr (by rfl)
  ⟨by decide, hn,
    (C3_not_ready_effects_zero sampleHypot samplePad (1 / 2) (1 / 2) 0 "blob:a" "a.wav" false
      sampleEvents (by decide)).1 hn⟩

/-! ## Hit resolution and the press handler (claims C9 and C10) -/

theorem findIndex_eq_none_iff {β : Type} (f : β → Bool) (l : List β) :
    findIndex f l = none ↔ ∀ b ∈ l, f b = false := by
  induction l with
  | nil => simp [findIndex]
  | cons a l ih =>
    unfold findIndex
    by_cases h : f a = true
    · simp [h]
    · simp [h, ih]

theorem findIndex_eq_some_iff {β : Type} (f : β → Bool) (l : List β) (i : Nat) :
    findIndex f l = some i ↔
      (∃ b, l[i]? = some b ∧ f b = true) ∧
        ∀ j b, j < i → l[j]? = some b → f b = false := by
  induction l generalizing i with
  | nil => simp [findIndex]
  | cons a l ih =>
    unfold findIndex
    by_cases h : f a = true
    · rw [if_pos h]
      cases i with
      | zero => simp [h]
      | succ k =>
        simp only [Option.some.injEq, Nat.succ_ne_zero, reduceCtorEq, false_iff, not_and]
        intro _ hall
        have := hall 0 a (Nat.succ_pos k) (by simp)
        rw [h] at this
        exact absurd this (by simp)
    · rw [if_neg h]
      cases i with
      | zero =>
        simp only [Option.map_eq_some', Nat.succ_ne_zero, and_false, exists_false, false_iff]
        rintro ⟨⟨b, hb, hfb⟩, _⟩
        simp at hb
        subst hb
        exact h hfb
      | succ k =>
        simp only [Option.map_eq_some', Nat.add_right_cancel_iff, exists_eq_right, ih k,
          List.getElem?_cons_succ]
        constructor
        · rintro ⟨hex, hall⟩
          refine ⟨hex, ?_⟩
          intro j b hj hb
          cases j with
          | zero =>
            simp at hb
            subst hb
            simpa using h
          | succ j1 =>
            exact hall j1 b (Nat.lt_of_succ_lt_succ hj) (by simpa using hb)
        · rintro ⟨hex, hall⟩
          refine ⟨hex, ?_⟩
          intro j b hj hb
          exact hall (j + 1) b (Nat.succ_lt_succ hj) (by simpa using hb)

theorem topHit_eq_map (pucks : List (AudioPuck α)) (x y : α) :
    topHit pucks x y
      = (findIndex (fun p => p.isHit x y) pucks.reverse).map
          (fun r => pucks.length - 1 - r) := by
  unfold topHit
  cases findIndex (fun p => p.isHit x y) pucks.reverse <;> rfl

theorem lt_length_of_getElem? {β : Type} {l : List β} {i : Nat} {b : β}
    (h : l[i]? = some b) : i < l.length := by
  obtain ⟨hlt, _⟩ := List.getElem?_eq_some.mp h
  exact hlt

/-- The index `topHit` returns is the greatest index whose puck body contains the point. -/
theorem topHit_eq_some_iff (pucks : List (AudioPuck α)) (x y : α) (i : Nat) :
    topHit pucks x y = some i ↔
      (∃ p, pucks[i]? = some p ∧ p.isHit x y = true) ∧
        ∀ j q, i < j → pucks[j]? = some q → q.isHit x y = false := by
  rw [topHit_eq_map]
  constructor
  · intro h
    obtain ⟨r, hr, hri⟩ := Option.map_eq_some'.mp h
    obtain ⟨⟨b, hb, hfb⟩, hall⟩ :=
      (findIndex_eq_some_iff (fun p => p.isHit x y) pucks.reverse r).mp hr
    have hrlt : r < pucks.length := by
      have := lt_length_of_getElem? hb
      simpa using this
    rw [List.getElem?_reverse hrlt, hri] at hb
    refine ⟨⟨b, hb, hfb⟩, ?_⟩
    intro j q hj hq
    have hjlt : j < pucks.length := lt_length_of_getElem? hq
    have h1 : pucks.length - 1 - j < pucks.length := by omega
    have h2 : pucks.length - 1 - (pucks.length - 1 - j) = j := by omega
    refine hall (pucks.length - 1 - j) q (by omega) ?_
    rw [List.getElem?_reverse h1, h2]
    exact hq
  · rintro ⟨⟨p, hp, hfp⟩, hall⟩
    have hilt : i < pucks.length := lt_length_of_getElem? hp
    have h1 : pucks.length - 1 - i < pucks.length := by omega
    have h2 : pucks.length - 1 - (pucks.length - 1 - i) = i := by omega
    refine Option.map_eq_some'.mpr ⟨pucks.length - 1 - i, ?_, h2⟩
    refine (findIndex_eq_some_iff (fun p => p.isHit x y) pucks.reverse _).mpr ⟨⟨p, ?_, hfp⟩, ?_⟩
    · rw [List.getElem?_reverse h1, h2]
      exact hp
    · intro j b hj hb
      have hjlt : j < pucks.length := by
        have := lt_length_of_getElem? hb
        simpa using this
      rw [List.getElem?_reverse hjlt] at hb
      exact hall (pucks.length - 1 - j) b (by omega) hb

theorem topHit_eq_none_iff (pucks : List (AudioPuck α)) (x y : α) :
    topHit pucks x y = none ↔ ∀ p ∈ pucks, p.isHit x y = false := by
  rw [topHit_eq_map, Option.map_eq_none', findIndex_eq_none_iff]
  simp only [List.mem_reverse]

/-- The hover the `mousemove` listener leaves is `topHit` on the pucks it received. -/
theorem mousemove_hovered (hypot : α → α → α) (env : PadEnv α) (s : Controller α) (x y : α) :
    (mousemove hypot env s x y).hoveredPuckIndex = topHit s.pucks x y := by
  unfold mousemove
  dsimp only
  split_ifs <;> (repeat' split) <;> rfl

/-- C9: for every list of pucks and every pointer point, the hover the `mousemove` listener
computes (on the positions held when the event arrives, whatever is being dragged) is the
greatest index `i` such that `pucks[i].isHit(point)`, and none exactly when no puck body
contains the point; for two pucks `[a, b]` whose bodies both contain the point the hover is
`b` (index 1), and in general a puck that lies under another hit puck is never the hover. -/
theorem C9_hover_is_topmost_hit (hypot : α → α → α) (env : PadEnv α) (s : Controller α)
    (x y : α) :
    (∀ i, (mousemove hypot env s x y).hoveredPuckIndex = some i ↔
      ((∃ p, s.pucks[i]? = some p ∧ p.isHit x y = true) ∧
        ∀ j q, i < j → s.pucks[j]? = some q → q.isHit x y = false)) ∧
    ((mousemove hypot env s x y).hoveredPuckIndex = none ↔
      ∀ p ∈ s.pucks, p.isHit x y = false) ∧
    (∀ a b, s.pucks = [a, b] → a.isHit x y = true → b.isHit x y = true →
      (mousemove hypot env s x y).hoveredPuckIndex = some 1) ∧
    (∀ i j a b, i < j → s.pucks[i]? = some a → s.pucks[j]? = some b →
      a.isHit x y = true → b.isHit x y = true →
      ∃ k, (mousemove hypot env s x y).hoveredPuckIndex = some k ∧ j ≤ k) := by
  rw [mousemove_hovered]
  have hgen : ∀ i j a b, i < j → s.pucks[i]? = some a → s.pucks[j]? = some b →
      a.isHit x y = true → b.isHit x y = true →
      ∃ k, topHit s.pucks x y = some k ∧ j ≤ k := by
    intro i j a b _ _ hb _ hbh
    cases ht : topHit s.pucks x y with
    | none =>
      have hall := (topHit_eq_none_iff s.pucks x y).mp ht
      have hmem : b ∈ s.pucks := List.mem_iff_getElem?.mpr ⟨j, hb⟩
      rw [hall b hmem] at hbh
      exact absurd hbh (by simp)
    | some k =>
      refine ⟨k, rfl, ?_⟩
      by_contra hlt
      have hall := ((topHit_eq_some_iff s.pucks x y k).mp ht).2
      rw [hall j b (by omega) hb] at hbh
      exact absurd hbh (by simp)
  refine ⟨fun i => topHit_eq_some_iff s.pucks x y i, topHit_eq_none_iff s.pucks x y, ?_, hgen⟩
  intro a b hs ha hb
  obtain ⟨k, hk, hle⟩ := hgen 0 1 a b Nat.zero_lt_one (by rw [hs]; rfl) (by rw [hs]; rfl) ha hb
  have hklt : k < s.pucks.length := by
    obtain ⟨⟨p, hp, _⟩, _⟩ := (topHit_eq_some_iff s.pucks x y k).mp hk
    exact lt_length_of_getElem? hp
  rw [hs] at hklt
  have hk1 : k = 1 := by
    simp only [List.length_cons, List.length_nil] at hklt
    omega
  rw [hk, hk1]

/-- Witness of C9: the point `(5, 0)` lies in both sample pucks, and the hover is the second. -/
theorem C9_hover_is_topmost_hit_witness :
    sampleController.pucks = [puckAt 0 0, puckAt 10 0] ∧
    (puckAt 0 0 : AudioPuck ℚ).isHit 5 0 = true ∧ (puckAt 10 0 : AudioPuck ℚ).isHit 5 0 = true ∧
    (mousemove sampleHypot samplePad sampleController 5 0).hoveredPuckIndex = some 1 :=
  have ha : (puckAt 0 0 : AudioPuck ℚ).isHit 5 0 = true := by
    simp only [isHit, puckAt, readyPuck]; norm_num
  have hb : (puckAt 10 0 : AudioPuck ℚ).isHit 5 0 = true := by
    simp only [isHit, puckAt, readyPuck]; norm_num
  ⟨rfl, ha, hb,
    (C9_hover_is_topmost_hit sampleHypot samplePad sampleController 5 0).2.2.1 _ _ rfl ha hb⟩

/-- C10: on a press with a non-empty puck list, `deletePuck(i)` is called exactly when `i` is
the hovered index of an existing puck whose delete-control region contains the press point.
In that case the result is the state left by `deletePuck(i)`, whatever `deletePuck` is, with
`draggingPuckIndex` and `hoveredPuckIndex` set to none (no drag starts).  Otherwise (also when
the point is in the delete control of a puck that is not hovered) the result does not depend
on `deletePuck`: pucks, hover and `pendingUndo` are unchanged and the drag target is the
topmost body hit. -/
theorem C10_press_on_delete_control (dp : Nat → Controller α → Controller α)
    (s : Controller α) (x y : α) (hne : s.pucks ≠ []) :
    (∀ i p, s.hoveredPuckIndex = some i → s.pucks[i]? = some p → p.isDeleteHit x y = true →
      (mousedown dp s x y = { dp i s with
          draggingPuckIndex := none
          hoveredPuckIndex := none
          cursor := Cursor.crosshair } ∧
        (mousedown dp s x y).draggingPuckIndex = none ∧
        (mousedown dp s x y).hoveredPuckIndex = none)) ∧
    ((∀ i p, s.hoveredPuckIndex = some i → s.pucks[i]? = some p → p.isDeleteHit x y = false) →
      ((∀ dp1 : Nat → Controller α → Controller α, mousedown dp1 s x y = mousedown dp s x y) ∧
        (mousedown dp s x y).pucks = s.pucks ∧
        (mousedown dp s x y).hoveredPuckIndex = s.hoveredPuckIndex ∧
        (mousedown dp s x y).pendingUndo = s.pendingUndo ∧
        (mousedown dp s x y).draggingPuckIndex = topHit s.pucks x y)) := by
  have hlen : ¬ s.pucks.length = 0 := by
    intro h; exact hne (List.length_eq_zero.mp h)
  constructor
  · intro i p hi hp hd
    have key : ∀ f : Nat → Controller α → Controller α,
        mousedown f s x y = { f i s with
          draggingPuckIndex := none
          hoveredPuckIndex := none
          cursor := Cursor.crosshair } := by
      intro f
      unfold mousedown
      rw [if_neg hlen]
      simp only [hi, hp, hd, if_true]
    refine ⟨key dp, ?_, ?_⟩
    · rw [key dp]
    · rw [key dp]
  · intro hno
    have key : ∀ f : Nat → Controller α → Controller α,
        mousedown f s x y =
          match topHit s.pucks x y with
          | some i => { s with draggingPuckIndex := some i, cursor := Cursor.grabbing }
          | none => { s with draggingPuckIndex := none } := by
      intro f
      unfold mousedown
      rw [if_neg hlen]
      cases hi : s.hoveredPuckIndex with
      | none => rfl
      | some i =>
        dsimp only
        cases hp : s.pucks[i]? with
        | none => rfl
        | some p =>
          have hd := hno i p hi hp
          simp only [hd]
          rfl
    refine ⟨fun dp1 => (key dp1).trans (key dp).symm, ?_, ?_, ?_, ?_⟩ <;> rw [key dp] <;>
      cases topHit s.pucks x y <;> rfl

/-- Witness of C10: with the second sample puck hovered, a press at `(24, -14)`, inside its
delete control, starts no drag and clears the hover. -/
theorem C10_press_on_delete_control_witness :
    sampleController.pucks ≠ [] ∧ sampleController.hoveredPuckIndex = some 1 ∧
    sampleController.pucks[1]? = some (puckAt 10 0) ∧
    (puckAt 10 0 : AudioPuck ℚ).isDeleteHit 24 (-14) = true ∧
    (mousedown deletePuck sampleController 24 (-14)).draggingPuckIndex = none ∧
    (mousedown deletePuck sampleController 24 (-14)).hoveredPuckIndex = none :=
  have hd : (puckAt 10 0 : AudioPuck ℚ).isDeleteHit 24 (-14) = true := by
    simp only [isDeleteHit, getDeleteButtonPosition, puckAt, readyPuck]; norm_num
  have hne : sampleController.pucks ≠ [] := by simp [sampleController]
  have h := (C10_press_on_delete_control deletePuck sampleController 24 (-14) hne).1
    1 (puckAt 10 0) rfl rfl hd
  ⟨hne, rfl, rfl, hd, h.2.1, h.2.2⟩

/-! ## Starting and continuing a drag (claims C11 and C12) -/

/-- A press on the delete control of the hovered puck. -/
theorem mousedown_of_deleteHit (f : Nat → Controller α → Controller α) (s : Controller α)
    (x y : α) (hne : s.pucks ≠ []) (i : Nat) (p : AudioPuck α)
    (hi : s.hoveredPuckIndex = some i) (hp : s.pucks[i]? = some p)
    (hd : p.isDeleteHit x y = true) :
    mousedown f s x y = { f i s with
      draggingPuckIndex := none
      hoveredPuckIndex := none
      cursor := Cursor.crosshair } := by
  have hlen : ¬ s.pucks.length = 0 := fun h => hne (List.length_eq_zero.mp h)
  unfold mousedown
  rw [if_neg hlen]
  simp only [hi, hp, hd, if_true]

/-- A press that is not on the delete control of the hovered puck. -/
theorem mousedown_of_no_deleteHit (f : Nat → Controller α → Controller α) (s : Controller α)
    (x y : α) (hne : s.pucks ≠ [])
    (hno : ∀ i p, s.hoveredPuckIndex = some i → s.pucks[i]? = some p →
      p.isDeleteHit x y = false) :
    mousedown f s x y =
      match topHit s.pucks x y with
      | some i => { s with draggingPuckIndex := some i, cursor := Cursor.grabbing }
      | none => { s with draggingPuckIndex := none } := by
  have hlen : ¬ s.pucks.length = 0 := fun h => hne (List.length_eq_zero.mp h)
  unfold mousedown
  rw [if_neg hlen]
  cases hi : s.hoveredPuckIndex with
  | none => rfl
  | some i =>
    dsimp only
    cases hp : s.pucks[i]? with
    | none => rfl
    | some p =>
      have hd := hno i p hi hp
      simp only [hd]
      rfl

/-- A hit on the last puck of the list is the topmost hit. -/
theorem topHit_concat_of_hit (l : List (AudioPuck α)) (b : AudioPuck α) (x y : α)
    (hb : b.isHit x y = true) : topHit (l ++ [b]) x y = some l.length := by
  refine (topHit_eq_some_iff _ x y _).mpr ⟨⟨b, by simp, hb⟩, ?_⟩
  intro j q hj hq
  have := lt_length_of_getElem? hq
  simp only [List.length_append, List.length_cons, List.length_nil] at this
  omega

/-- C11 (amended): whenever a press on a non-empty puck list leaves the controller dragging
the puck of index `i`, that puck is the topmost puck whose body contains the press point, and,
if it is the puck hovered before the press, the press point is outside its delete-control
region; the press removes no puck. -/
theorem C11_drag_start (dp : Nat → Controller α → Controller α) (s : Controller α)
    (x y : α) (i : Nat) (hne : s.pucks ≠ [])
    (hdrag : (mousedown dp s x y).draggingPuckIndex = some i) :
    (∃ p, s.pucks[i]? = some p ∧ p.isHit x y = true ∧
      (s.hoveredPuckIndex = some i → p.isDeleteHit x y = false)) ∧
    topHit s.pucks x y = some i ∧
    (mousedown dp s x y).pucks = s.pucks := by
  have hno : ∀ j p, s.hoveredPuckIndex = some j → s.pucks[j]? = some p →
      p.isDeleteHit x y = false := by
    intro j p hj hp
    cases hd : p.isDeleteHit x y
    · rfl
    · rw [mousedown_of_deleteHit dp s x y hne j p hj hp hd] at hdrag
      exact absurd hdrag (by simp)
  rw [mousedown_of_no_deleteHit dp s x y hne hno] at hdrag ⊢
  cases ht : topHit s.pucks x y with
  | none =>
    rw [ht] at hdrag
    exact absurd hdrag (by simp)
  | some k =>
    rw [ht] at hdrag
    have hk : k = i := by simpa using hdrag
    subst hk
    obtain ⟨⟨p, hp, hph⟩, _⟩ := (topHit_eq_some_iff s.pucks x y k).mp ht
    exact ⟨⟨p, hp, hph, fun hh => hno k p hh hp⟩, rfl, rfl⟩

/-- The point `(5, 0)` is in the body of the sample puck at `(10, 0)`. -/
theorem puckAt_ten_isHit : (puckAt 10 0 : AudioPuck ℚ).isHit 5 0 = true := by
  simp only [isHit, puckAt, readyPuck]; norm_num

/-- The point `(5, 0)` is outside the delete control of the sample puck at `(10, 0)`. -/
theorem puckAt_ten_not_deleteHit : (puckAt 10 0 : AudioPuck ℚ).isDeleteHit 5 0 = false := by
  simp only [isDeleteHit, getDeleteButtonPosition, puckAt, readyPuck]; norm_num

/-- A press at `(5, 0)` on the two sample pucks starts a drag of the second. -/
theorem sampleController_press :
    (mousedown deletePuck sampleController 5 0).draggingPuckIndex = some 1 := by
  have hne : sampleController.pucks ≠ [] := by simp [sampleController]
  have hno : ∀ i p, sampleController.hoveredPuckIndex = some i →
      sampleController.pucks[i]? = some p → p.isDeleteHit (5 : ℚ) 0 = false := by
    intro i p hi hp
    have h1 : i = 1 := by
      have : some 1 = some i := hi
      simpa using this.symm
    subst h1
    have h2 : p = puckAt 10 0 := by
      have : some (puckAt 10 0) = some p := hp
      simpa using this.symm
    rw [h2]
    exact puckAt_ten_not_deleteHit
  rw [mousedown_of_no_deleteHit deletePuck sampleController 5 0 hne hno]
  have ht : topHit sampleController.pucks 5 0 = some 1 :=
    topHit_concat_of_hit [puckAt 0 0] (puckAt 10 0) 5 0 puckAt_ten_isHit
  rw [ht]

/-- Witness of C11: a press at `(5, 0)` on the two sample pucks, the second one hovered. -/
theorem C11_drag_start_witness :
    sampleController.pucks ≠ [] ∧
    (mousedown deletePuck sampleController 5 0).draggingPuckIndex = some 1 ∧
    topHit sampleController.pucks 5 0 = some 1 :=
  ⟨by simp [sampleController], sampleController_press,
    (C11_drag_start deletePuck sampleController 5 0 1 (by simp [sampleController])
      sampleController_press).2.1⟩

/-- C11 as stated fails when the pressed puck is not the hovered one: with one puck of radius
20 at `(0, 0)` and no hover, a press at `(14, -14)`, which lies inside the body of the puck and
inside its delete-control region, starts a drag of the puck. -/
theorem C11_counterexample_unhovered_press :
    unhoveredController.pucks = [puckAt 0 0] ∧
    unhoveredController.hoveredPuckIndex = none ∧
    (mousedown deletePuck unhoveredController 14 (-14)).draggingPuckIndex = some 0 ∧
    (puckAt 0 0 : AudioPuck ℚ).isHit 14 (-14) = true ∧
    (puckAt 0 0 : AudioPuck ℚ).isDeleteHit 14 (-14) = true := by
  have hh : (puckAt 0 0 : AudioPuck ℚ).isHit 14 (-14) = true := by
    simp only [isHit, puckAt, readyPuck]; norm_num
  have hd : (puckAt 0 0 : AudioPuck ℚ).isDeleteHit 14 (-14) = true := by
    simp only [isDeleteHit, getDeleteButtonPosition, puckAt, readyPuck]; norm_num
  refine ⟨rfl, rfl, ?_, hh, hd⟩
  have hne : unhoveredController.pucks ≠ [] := by simp [unhoveredController]
  have hno : ∀ i p, unhoveredController.hoveredPuckIndex = some i →
      unhoveredController.pucks[i]? = some p → p.isDeleteHit (14 : ℚ) (-14) = false := by
    intro i p hi
    exact absurd hi (by simp [unhoveredController])
  rw [mousedown_of_no_deleteHit deletePuck unhoveredController 14 (-14) hne hno]
  have ht : topHit unhoveredController.pucks 14 (-14) = some 0 :=
    topHit_concat_of_hit [] (puckAt 0 0) 14 (-14) hh
  rw [ht]

/-- The `mousemove` listener while a puck of the list is being dragged. -/
theorem mousemove_of_dragging (hypot : α → α → α) (env : PadEnv α) (s : Controller α)
    (x y : α) (d : Nat) (p : AudioPuck α) (hd : s.draggingPuckIndex = some d)
    (hp : s.pucks[d]? = some p) :
    mousemove hypot env s x y =
      { s with
        hoveredPuckIndex := topHit s.pucks x y
        pucks := s.pucks.set d (updateEffects hypot env { p with x := x, y := y })
        cursor := Cursor.grabbing } := by
  unfold mousemove
  simp only [hd, hp, dragTo, reduceCtorEq, if_false]

/-- C12: while dragging a valid puck index `d`, a pointer move to `(x, y)` replaces
`pucks[d]` by the result of `updateEffects` on that puck with `x` and `y` set to the pointer
coordinates, so its position is exactly `(x, y)`; every other puck is unchanged (position,
radius, volume and all other fields), the list keeps its length and order, and
`draggingPuckIndex` is unchanged. -/
theorem C12_drag_move (hypot : α → α → α) (env : PadEnv α) (s : Controller α) (x y : α)
    (d : Nat) (p : AudioPuck α) (hd : s.draggingPuckIndex = some d)
    (hp : s.pucks[d]? = some p) :
    (mousemove hypot env s x y).pucks[d]?
      = some (updateEffects hypot env { p with x := x, y := y }) ∧
    (∀ q, (mousemove hypot env s x y).pucks[d]? = some q →
      q.x = x ∧ q.y = y ∧ q.radius = p.radius ∧ q.volumeValue = p.volumeValue ∧
      q.url = p.url) ∧
    (∀ j, j ≠ d → (mousemove hypot env s x y).pucks[j]? = s.pucks[j]?) ∧
    (mousemove hypot env s x y).pucks.length = s.pucks.length ∧
    (mousemove hypot env s x y).draggingPuckIndex = some d := by
  have hlt : d < s.pucks.length := lt_length_of_getElem? hp
  rw [mousemove_of_dragging hypot env s x y d p hd hp]
  have h1 : (s.pucks.set d (updateEffects hypot env { p with x := x, y := y }))[d]?
      = some (updateEffects hypot env { p with x := x, y := y }) := by
    rw [List.getElem?_set_self hlt]
  refine ⟨h1, ?_, ?_, ?_, hd⟩
  · intro q hq
    have hq1 : (s.pucks.set d (updateEffects hypot env { p with x := x, y := y }))[d]?
        = some q := hq
    rw [h1] at hq1
    have hq2 : q = updateEffects hypot env { p with x := x, y := y } := by
      simpa using hq1.symm
    rw [hq2]
    unfold updateEffects
    split_ifs <;> exact ⟨rfl, rfl, rfl, rfl, rfl⟩
  · intro j hj
    exact List.getElem?_set_ne (Ne.symm hj)
  · exact List.length_set _ _ _

/-- Witness of C12: the second sample puck, being dragged, follows the pointer to `(50, 60)`. -/
theorem C12_drag_move_witness :
    draggingController.draggingPuckIndex = some 1 ∧
    draggingController.pucks[1]? = some (puckAt 10 0) ∧
    (mousemove sampleHypot samplePad draggingController 50 60).pucks[1]?
      = some (updateEffects sampleHypot samplePad { (puckAt 10 0 : AudioPuck ℚ) with
          x := 50, y := 60 }) ∧
    (mousemove sampleHypot samplePad draggingController 50 60).pucks[0]?
      = draggingController.pucks[0]? :=
  have h := C12_drag_move sampleHypot samplePad draggingController 50 60 1 (puckAt 10 0)
    rfl rfl
  ⟨rfl, rfl, h.1, h.2.2.1 0 (by decide)⟩

/-! ## The effect mapping on particular pads (claims C13 to C16) -/

theorem sqrt_sub_sqrt_le (a b c e : ℝ) :
    |Real.sqrt (a ^ 2 + b ^ 2) - Real.sqrt (c ^ 2 + e ^ 2)|
      ≤ Real.sqrt ((a - c) ^ 2 + (b - e) ^ 2) := by
  have h := abs_norm_sub_norm_le (⟨a, b⟩ : ℂ) (⟨c, e⟩ : ℂ)
  have e1 : ∀ u v : ℝ, ‖(⟨u, v⟩ : ℂ)‖ = Real.sqrt (u ^ 2 + v ^ 2) := by
    intro u v
    rw [Complex.norm_eq_abs, Complex.abs_apply, Complex.normSq_mk, pow_two, pow_two]
  have e2 : (⟨a, b⟩ : ℂ) - ⟨c, e⟩ = ⟨a - c, b - e⟩ := rfl
  rw [e2, e1, e1, e1] at h
  exact h

theorem sqrt_quarter (X : ℝ) : Real.sqrt (X / 4) = Real.sqrt X / 2 := by
  rw [show (4 : ℝ) = 2 ^ 2 by norm_num, Real.sqrt_div' _ (by positivity),
    Real.sqrt_sq (by norm_num)]

theorem sqrt_three_four : Real.sqrt ((4 : ℝ) ^ 2 + 3 ^ 2) = 5 := by
  rw [show ((4 : ℝ) ^ 2 + 3 ^ 2) = 5 ^ 2 by norm_num]
  exact Real.sqrt_sq (by norm_num)

theorem maxDist_eq_sqrt (hypot : ℝ → ℝ → ℝ)
    (hh : ∀ a b, hypot a b = Real.sqrt (a ^ 2 + b ^ 2)) (env : PadEnv ℝ) :
    maxDist hypot env = Real.sqrt (currentWidth env ^ 2 + currentHeight env ^ 2) := by
  unfold maxDist; rw [hh]

theorem currentWidth_of_canvas (env : PadEnv α) (c : Canvas α) (hc : env.canvas = some c)
    (hW : c.width ≠ 0) : currentWidth env = c.width := by
  unfold currentWidth
  rw [hc]
  simp only [Option.map_some', jsOr]
  rw [if_neg hW]

theorem currentHeight_of_canvas (env : PadEnv α) (c : Canvas α) (hc : env.canvas = some c)
    (hH : c.height ≠ 0) : currentHeight env = c.height := by
  unfold currentHeight
  rw [hc]
  simp only [Option.map_some', jsOr]
  rw [if_neg hH]

theorem currentWidth_zeroWidthPad : currentWidth (zeroWidthPad : PadEnv ℝ) = 4 := by
  simp only [currentWidth, zeroWidthPad, Option.map_some', jsOr]
  rw [if_pos trivial]

theorem currentHeight_zeroWidthPad : currentHeight (zeroWidthPad : PadEnv ℝ) = 3 := by
  simp only [currentHeight, zeroWidthPad, Option.map_some', jsOr]
  rw [if_neg (by norm_num)]

theorem currentWidth_zeroSizePad : currentWidth (zeroSizePad : PadEnv ℝ) = 4 := by
  simp only [currentWidth, zeroSizePad, Option.map_some', jsOr]
  rw [if_pos trivial]

theorem currentHeight_zeroSizePad : currentHeight (zeroSizePad : PadEnv ℝ) = 3 := by
  simp only [currentHeight, zeroSizePad, Option.map_some', jsOr]
  rw [if_pos trivial]

/-- The proximity of a puck at the centre of the pad to a corner of the pad is one half. -/
theorem prox_centre (hypot : ℝ → ℝ → ℝ) (hh : ∀ a b, hypot a b = Real.sqrt (a ^ 2 + b ^ 2))
    (env : PadEnv ℝ) (p : AudioPuck ℝ) (c : Point ℝ) (hM : 0 < maxDist hypot env)
    (hx : p.x = currentWidth env / 2) (hy : p.y = currentHeight env / 2)
    (hcx : c.x = 0 ∨ c.x = currentWidth env) (hcy : c.y = 0 ∨ c.y = currentHeight env) :
    prox hypot env p c = 1 / 2 := by
  have hsq : (p.x - c.x) ^ 2 + (p.y - c.y) ^ 2
      = (currentWidth env ^ 2 + currentHeight env ^ 2) / 4 := by
    rw [hx, hy]
    rcases hcx with h1 | h1 <;> rcases hcy with h2 | h2 <;> rw [h1, h2] <;> ring
  have hd : AudioPuck.d hypot p c = maxDist hypot env / 2 := by
    unfold AudioPuck.d
    rw [hh, hsq, sqrt_quarter, ← maxDist_eq_sqrt hypot hh env]
  unfold prox
  rw [hd]
  have hr : maxDist hypot env / 2 / maxDist hypot env = 1 / 2 := by
    rw [div_div, mul_comm, ← div_div, div_self hM.ne']
  rw [hr, min_eq_left (by norm_num)]
  norm_num

theorem updateEffects_x (hypot : α → α → α) (env : PadEnv α) (p : AudioPuck α) :
    (updateEffects hypot env p).x = p.x := by
  unfold updateEffects; split_ifs <;> rfl

theorem updateEffects_y (hypot : α → α → α) (env : PadEnv α) (p : AudioPuck α) :
    (updateEffects hypot env p).y = p.y := by
  unfold updateEffects; split_ifs <;> rfl

/-- What `onload` does to a puck: it becomes ready, and its position and its four effect
levels are the ones it had. -/
theorem onload_fields (p : AudioPuck α) (r t : Bool) :
    (p.onload r t).isLoaded = true ∧ (p.onload r t).loadError = false ∧
    (p.onload r t).x = p.x ∧ (p.onload r t).y = p.y ∧
    (p.onload r t).delayWet = p.delayWet ∧ (p.onload r t).reverbWet = p.reverbWet ∧
    (p.onload r t).distortionWet = p.distortionWet ∧ (p.onload r t).eqLow = p.eqLow := by
  unfold onload
  split_ifs <;> exact ⟨rfl, rfl, rfl, rfl, rfl, rfl, rfl, rfl⟩

theorem create_x (hypot : α → α → α) (env : PadEnv α) (rx ry : α) (index : Nat)
    (audioUrl filename : String) (isRecorded : Bool) :
    (create hypot env rx ry index audioUrl filename isRecorded).x
      = jsOr (env.canvas.map fun c => c.width / 2) 300 + (rx - 1 / 2) * 100 := by
  unfold create; rw [updateEffects_x]

theorem create_y (hypot : α → α → α) (env : PadEnv α) (rx ry : α) (index : Nat)
    (audioUrl filename : String) (isRecorded : Bool) :
    (create hypot env rx ry index audioUrl filename isRecorded).y
      = jsOr (env.canvas.map fun c => c.height / 2) 300 + (ry - 1 / 2) * 100 := by
  unfold create; rw [updateEffects_y]

theorem currentWidth_squarePad : currentWidth (squarePad : PadEnv ℝ) = 600 := by
  simp only [currentWidth, squarePad, Option.map_some', jsOr]
  rw [if_neg (by norm_num)]

theorem currentHeight_squarePad : currentHeight (squarePad : PadEnv ℝ) = 600 := by
  simp only [currentHeight, squarePad, Option.map_some', jsOr]
  rw [if_neg (by norm_num)]

theorem maxDist_squarePad_pos :
    0 < maxDist (fun a b => Real.sqrt (a ^ 2 + b ^ 2)) (squarePad : PadEnv ℝ) := by
  rw [maxDist_eq_sqrt _ (fun _ _ => rfl), currentWidth_squarePad, currentHeight_squarePad]
  exact Real.sqrt_pos.mpr (by norm_num)

/-- C13 (the code departs from the claim): the `onload` callback makes the puck ready but does
not call `updateEffects`, so right after a successful load the four effect levels are still
the zeros of the loading puck, whatever its position; for a puck constructed at the centre of
the 600 by 600 pad the mapping of §4.1 at its position would give `reverbWet = 1/2` and
`delayWet = 1/4`. -/
theorem C13_onload_keeps_effects (hypot : ℝ → ℝ → ℝ) (env : PadEnv ℝ) (rx ry : ℝ)
    (index : Nat) (audioUrl filename : String) (isRecorded : Bool) (r t : Bool) :
    (((create hypot env rx ry index audioUrl filename isRecorded).onload r t).isLoaded = true ∧
      ((create hypot env rx ry index audioUrl filename isRecorded).onload r t).loadError
        = false ∧
      EffectsZero ((create hypot env rx ry index audioUrl filename isRecorded).onload r t)) ∧
    ((create (fun a b => Real.sqrt (a ^ 2 + b ^ 2)) (squarePad : PadEnv ℝ) (1 / 2) (1 / 2) 0
        "blob:a" "a.wav" false).onload false false).reverbWet = 0 ∧
    (updateEffects (fun a b => Real.sqrt (a ^ 2 + b ^ 2)) squarePad
      ((create (fun a b => Real.sqrt (a ^ 2 + b ^ 2)) (squarePad : PadEnv ℝ) (1 / 2) (1 / 2) 0
        "blob:a" "a.wav" false).onload false false)).reverbWet = 1 / 2 ∧
    (updateEffects (fun a b => Real.sqrt (a ^ 2 + b ^ 2)) squarePad
      ((create (fun a b => Real.sqrt (a ^ 2 + b ^ 2)) (squarePad : PadEnv ℝ) (1 / 2) (1 / 2) 0
        "blob:a" "a.wav" false).onload false false)).delayWet = 1 / 4 := by
  have hgen : ∀ (h : ℝ → ℝ → ℝ) (e : PadEnv ℝ) (a b : ℝ) (i : Nat) (u f : String)
      (rec r1 t1 : Bool),
      ((create h e a b i u f rec).onload r1 t1).isLoaded = true ∧
      ((create h e a b i u f rec).onload r1 t1).loadError = false ∧
      EffectsZero ((create h e a b i u f rec).onload r1 t1) := by
    intro h e a b i u f rec r1 t1
    obtain ⟨h1, h2, _, _, h5, h6, h7, h8⟩ := onload_fields (create h e a b i u f rec) r1 t1
    obtain ⟨_, _, z1, z2, z3, z4⟩ := create_loading h e a b i u f rec
    exact ⟨h1, h2, h5.trans z1, h6.trans z2, h7.trans z3, h8.trans z4⟩
  obtain ⟨l1, l2, _, zr, _, _⟩ := hgen (fun a b => Real.sqrt (a ^ 2 + b ^ 2))
    (squarePad : PadEnv ℝ) (1 / 2) (1 / 2) 0 "blob:a" "a.wav" false false false
  obtain ⟨_, _, hx, hy, _⟩ := onload_fields
    (create (fun a b => Real.sqrt (a ^ 2 + b ^ 2)) (squarePad : PadEnv ℝ) (1 / 2) (1 / 2) 0
      "blob:a" "a.wav" false) false false
  have hx1 : ((create (fun a b => Real.sqrt (a ^ 2 + b ^ 2)) (squarePad : PadEnv ℝ) (1 / 2)
      (1 / 2) 0 "blob:a" "a.wav" false).onload false false).x
      = currentWidth (squarePad : PadEnv ℝ) / 2 := by
    rw [hx, create_x, currentWidth_squarePad]
    simp only [squarePad, Option.map_some', jsOr]
    norm_num
  have hy1 : ((create (fun a b => Real.sqrt (a ^ 2 + b ^ 2)) (squarePad : PadEnv ℝ) (1 / 2)
      (1 / 2) 0 "blob:a" "a.wav" false).onload false false).y
      = currentHeight (squarePad : PadEnv ℝ) / 2 := by
    rw [hy, create_y, currentHeight_squarePad]
    simp only [squarePad, Option.map_some', jsOr]
    norm_num
  have hM := maxDist_squarePad_pos
  refine ⟨hgen hypot env rx ry index audioUrl filename isRecorded r t, zr, ?_, ?_⟩
  · rw [updateEffects_of_ready _ _ _ l1 l2 hM.ne']
    show prox _ _ _ _ = 1 / 2
    exact prox_centre _ (fun _ _ => rfl) _ _ _ hM hx1 hy1
      (Or.inr currentWidth_squarePad.symm) (Or.inl rfl)
  · rw [updateEffects_of_ready _ _ _ l1 l2 hM.ne']
    show prox _ _ _ _ * (1 / 2) = 1 / 4
    rw [prox_centre _ (fun _ _ => rfl) _ _ _ hM hx1 hy1 (Or.inl rfl) (Or.inl rfl)]
    norm_num

theorem prox_eq_sqrt (hypot : ℝ → ℝ → ℝ) (hh : ∀ a b, hypot a b = Real.sqrt (a ^ 2 + b ^ 2))
    (env : PadEnv ℝ) (p : AudioPuck ℝ) (c : Point ℝ) :
    prox hypot env p c
      = 1 - min (Real.sqrt ((p.x - c.x) ^ 2 + (p.y - c.y) ^ 2)
          / Real.sqrt (currentWidth env ^ 2 + currentHeight env ^ 2)) 1 := by
  simp only [prox, AudioPuck.d, maxDist, hh]

theorem maxDist_zeroWidthPad :
    maxDist (fun a b => Real.sqrt (a ^ 2 + b ^ 2)) (zeroWidthPad : PadEnv ℝ) = 5 := by
  rw [maxDist_eq_sqrt _ (fun _ _ => rfl), currentWidth_zeroWidthPad,
    currentHeight_zeroWidthPad, sqrt_three_four]

theorem maxDist_zeroSizePad :
    maxDist (fun a b => Real.sqrt (a ^ 2 + b ^ 2)) (zeroSizePad : PadEnv ℝ) = 5 := by
  rw [maxDist_eq_sqrt _ (fun _ _ => rfl), currentWidth_zeroSizePad,
    currentHeight_zeroSizePad, sqrt_three_four]

/-- C14 (amended): for a Ready puck, when the two dimensions the code uses are 0, that is
`currentWidth env = 0` and `currentHeight env = 0` (for an existing canvas: its width and
height are 0 and so are the window's inner width and height), `maxDist` is 0 and
`updateEffects` returns before any division, leaving the puck and its four effect levels
unchanged. -/
theorem C14_degenerate_pad (hypot : ℝ → ℝ → ℝ)
    (hh : ∀ a b, hypot a b = Real.sqrt (a ^ 2 + b ^ 2)) (env : PadEnv ℝ) (p : AudioPuck ℝ)
    (hl : p.isLoaded = true) (he : p.loadError = false)
    (hw : currentWidth env = 0) (hht : currentHeight env = 0) :
    maxDist hypot env = 0 ∧ updateEffects hypot env p = p ∧
    (∀ c : Canvas ℝ, env.canvas = some c →
      c.width = 0 ∧ c.height = 0 ∧ env.innerWidth = 0 ∧ env.innerHeight = 0) := by
  have hm : maxDist hypot env = 0 := by
    rw [maxDist_eq_sqrt hypot hh, hw, hht]
    norm_num
  refine ⟨hm, ?_, ?_⟩
  · unfold updateEffects
    rw [if_neg (by simp [hl, he]), if_pos hm]
  · intro c hc
    unfold currentWidth at hw
    unfold currentHeight at hht
    rw [hc] at hw hht
    simp only [Option.map_some', jsOr] at hw hht
    have hcw : c.width = 0 := by
      by_contra hne
      rw [if_neg hne] at hw
      exact hne hw
    have hch : c.height = 0 := by
      by_contra hne
      rw [if_neg hne] at hht
      exact hne hht
    rw [if_pos hcw] at hw
    rw [if_pos hch] at hht
    exact ⟨hcw, hch, hw, hht⟩

/-- Witness of C14: a ready puck on a zero-size canvas in a zero-size window. -/
theorem C14_degenerate_pad_witness :
    (puckAt 1 2 : AudioPuck ℝ).isLoaded = true ∧ (puckAt 1 2 : AudioPuck ℝ).loadError = false ∧
    currentWidth (nullPad : PadEnv ℝ) = 0 ∧ currentHeight (nullPad : PadEnv ℝ) = 0 ∧
    updateEffects (fun a b => Real.sqrt (a ^ 2 + b ^ 2)) nullPad (puckAt 1 2 : AudioPuck ℝ)
      = puckAt 1 2 :=
  have hw : currentWidth (nullPad : PadEnv ℝ) = 0 := by
    simp [currentWidth, nullPad, jsOr]
  have hht : currentHeight (nullPad : PadEnv ℝ) = 0 := by
    simp [currentHeight, nullPad, jsOr]
  ⟨rfl, rfl, hw, hht,
    (C14_degenerate_pad (fun a b => Real.sqrt (a ^ 2 + b ^ 2)) (fun _ _ => rfl) nullPad
      (puckAt 1 2) rfl rfl hw hht).2.1⟩

/-- C14 as stated fails in a window of non-zero size: on a canvas of width 0 and height 0 in a
window 4 wide and 3 high the code takes `maxDist = 5`, and `updateEffects` changes the levels
of a ready puck at distance 3 from the delay anchor: `delayWet` goes from 0 to `1/5`. -/
theorem C14_counterexample_zero_size_canvas :
    (zeroSizePad : PadEnv ℝ).canvas = some { width := 0, height := 0 } ∧
    (readyPuck : AudioPuck ℝ).isLoaded = true ∧ (readyPuck : AudioPuck ℝ).loadError = false ∧
    (readyPuck : AudioPuck ℝ).delayWet = 0 ∧
    (updateEffects (fun a b => Real.sqrt (a ^ 2 + b ^ 2)) zeroSizePad
      (readyPuck : AudioPuck ℝ)).delayWet = 1 / 5 := by
  refine ⟨rfl, rfl, rfl, rfl, ?_⟩
  rw [updateEffects_of_ready _ _ _ rfl rfl (by rw [maxDist_zeroSizePad]; norm_num)]
  show prox _ _ _ _ * (1 / 2) = 1 / 5
  rw [prox_eq_sqrt _ (fun _ _ => rfl), currentWidth_zeroSizePad, currentHeight_zeroSizePad,
    sqrt_three_four]
  have hd : Real.sqrt (((readyPuck : AudioPuck ℝ).x
        - (zeroSizePad : PadEnv ℝ).corners.delay.x) ^ 2
      + ((readyPuck : AudioPuck ℝ).y - (zeroSizePad : PadEnv ℝ).corners.delay.y) ^ 2) = 3 := by
    simp only [readyPuck, zeroSizePad]
    rw [show (((0 : ℝ) - 0) ^ 2 + (3 - 0) ^ 2) = 3 ^ 2 by norm_num]
    exact Real.sqrt_sq (by norm_num)
  rw [hd]
  norm_num

/-- C15 (amended): for a canvas of non-zero width `W` and non-zero height `H` whose four
anchors are corners of the pad rectangle, a Ready puck at the pad centre `(W/2, H/2)` has all
four proximities equal to `1/2`, hence `reverbWet = 1/2`, `eqLowGainDb = 0`,
`delayWet = 1/4` and `distortionWet = 1/4`. -/
theorem C15_pad_centre (hypot : ℝ → ℝ → ℝ)
    (hh : ∀ a b, hypot a b = Real.sqrt (a ^ 2 + b ^ 2)) (env : PadEnv ℝ) (c : Canvas ℝ)
    (p : AudioPuck ℝ) (hc : env.canvas = some c) (hW : c.width ≠ 0) (hH : c.height ≠ 0)
    (hdelay : IsCorner c env.corners.delay) (hreverb : IsCorner c env.corners.reverb)
    (hdistortion : IsCorner c env.corners.distortion) (heq : IsCorner c env.corners.eq)
    (hl : p.isLoaded = true) (he : p.loadError = false)
    (hx : p.x = c.width / 2) (hy : p.y = c.height / 2) :
    (prox hypot env p env.corners.delay = 1 / 2 ∧ prox hypot env p env.corners.reverb = 1 / 2 ∧
      prox hypot env p env.corners.distortion = 1 / 2 ∧
      prox hypot env p env.corners.eq = 1 / 2) ∧
    (updateEffects hypot env p).reverbWet = 1 / 2 ∧
    (updateEffects hypot env p).eqLow = 0 ∧
    (updateEffects hypot env p).delayWet = 1 / 4 ∧
    (updateEffects hypot env p).distortionWet = 1 / 4 := by
  have hcw := currentWidth_of_canvas env c hc hW
  have hch := currentHeight_of_canvas env c hc hH
  have hM : 0 < maxDist hypot env :=
    maxDist_pos_of_canvas hypot hh env c hc (Real.sqrt_pos.mpr (by positivity))
  have key : ∀ a : Point ℝ, IsCorner c a → prox hypot env p a = 1 / 2 := by
    intro a ha
    refine prox_centre hypot hh env p a hM (by rw [hcw]; exact hx) (by rw [hch]; exact hy) ?_ ?_
    · rw [hcw]; exact ha.1
    · rw [hch]; exact ha.2
  have k1 := key _ hdelay
  have k2 := key _ hreverb
  have k3 := key _ hdistortion
  have k4 := key _ heq
  rw [updateEffects_of_ready hypot env p hl he hM.ne']
  refine ⟨⟨k1, k2, k3, k4⟩, k2, ?_, ?_, ?_⟩
  · show (prox hypot env p env.corners.eq - 1 / 2) * 24 = 0
    rw [k4]; norm_num
  · show prox hypot env p env.corners.delay * (1 / 2) = 1 / 4
    rw [k1]; norm_num
  · show prox hypot env p env.corners.distortion * (1 / 2) = 1 / 4
    rw [k3]; norm_num

/-- Witness of C15: the 600 by 600 pad with a ready puck at `(300, 300)`. -/
theorem C15_pad_centre_witness :
    (squarePad : PadEnv ℝ).canvas = some { width := 600, height := 600 } ∧
    (puckAt 300 300 : AudioPuck ℝ).isLoaded = true ∧
    (updateEffects (fun a b => Real.sqrt (a ^ 2 + b ^ 2)) squarePad
      (puckAt 300 300 : AudioPuck ℝ)).reverbWet = 1 / 2 ∧
    (updateEffects (fun a b => Real.sqrt (a ^ 2 + b ^ 2)) squarePad
      (puckAt 300 300 : AudioPuck ℝ)).eqLow = 0 :=
  have h := C15_pad_centre (fun a b => Real.sqrt (a ^ 2 + b ^ 2)) (fun _ _ => rfl) squarePad
    { width := 600, height := 600 } (puckAt 300 300) rfl
    (by show (600 : ℝ) ≠ 0; norm_num) (by show (600 : ℝ) ≠ 0; norm_num)
    ⟨Or.inl rfl, Or.inl rfl⟩ ⟨Or.inr rfl, Or.inl rfl⟩ ⟨Or.inl rfl, Or.inr rfl⟩
    ⟨Or.inr rfl, Or.inr rfl⟩ rfl rfl
    (by show (300 : ℝ) = 600 / 2; norm_num) (by show (300 : ℝ) = 600 / 2; norm_num)
  ⟨rfl, rfl, h.2.1, h.2.2.1⟩

/-- C15 as stated fails on a pad of width 0 and non-zero height: on the canvas 0 wide and 3
high (anchors on its corners) in a window of inner width 4, the code takes `maxDist = 5`, and
a ready puck at the centre `(0, 3/2)` gets `reverbWet = 7/10`, not `1/2`. -/
theorem C15_counterexample_zero_width_pad :
    (zeroWidthPad : PadEnv ℝ).canvas = some { width := 0, height := 3 } ∧
    IsCorner ({ width := 0, height := 3 } : Canvas ℝ) (zeroWidthPad : PadEnv ℝ).corners.delay ∧
    IsCorner ({ width := 0, height := 3 } : Canvas ℝ) (zeroWidthPad : PadEnv ℝ).corners.reverb ∧
    IsCorner ({ width := 0, height := 3 } : Canvas ℝ) (zeroWidthPad : PadEnv ℝ).corners.distortion ∧
    IsCorner ({ width := 0, height := 3 } : Canvas ℝ) (zeroWidthPad : PadEnv ℝ).corners.eq ∧
    (puckAt 0 (3 / 2) : AudioPuck ℝ).isLoaded = true ∧
    (puckAt 0 (3 / 2) : AudioPuck ℝ).loadError = false ∧
    (puckAt 0 (3 / 2) : AudioPuck ℝ).x = 0 / 2 ∧ (puckAt 0 (3 / 2) : AudioPuck ℝ).y = 3 / 2 ∧
    (updateEffects (fun a b => Real.sqrt (a ^ 2 + b ^ 2)) zeroWidthPad
      (puckAt 0 (3 / 2) : AudioPuck ℝ)).reverbWet = 7 / 10 := by
  refine ⟨rfl, ⟨Or.inl rfl, Or.inl rfl⟩, ⟨Or.inl rfl, Or.inl rfl⟩, ⟨Or.inl rfl, Or.inr rfl⟩,
    ⟨Or.inl rfl, Or.inr rfl⟩, rfl, rfl, ?_, rfl, ?_⟩
  · show (0 : ℝ) = 0 / 2
    norm_num
  · rw [updateEffects_of_ready _ _ _ rfl rfl (by rw [maxDist_zeroWidthPad]; norm_num)]
    show prox _ _ _ _ = 7 / 10
    rw [prox_eq_sqrt _ (fun _ _ => rfl), currentWidth_zeroWidthPad,
      currentHeight_zeroWidthPad, sqrt_three_four]
    have hd : Real.sqrt (((puckAt 0 (3 / 2) : AudioPuck ℝ).x
          - (zeroWidthPad : PadEnv ℝ).corners.reverb.x) ^ 2
        + ((puckAt 0 (3 / 2) : AudioPuck ℝ).y
          - (zeroWidthPad : PadEnv ℝ).corners.reverb.y) ^ 2) = 3 / 2 := by
      simp only [puckAt, readyPuck, zeroWidthPad]
      rw [show (((0 : ℝ) - 0) ^ 2 + (3 / 2 - 0) ^ 2) = (3 / 2) ^ 2 by norm_num]
      exact Real.sqrt_sq (by norm_num)
    rw [hd]
    norm_num

/-- The diagonal of the canvas is at most the code's `maxDist`: a canvas dimension is used
as it is unless it is 0. -/
theorem canvas_diagonal_le_maxDist (hypot : ℝ → ℝ → ℝ)
    (hh : ∀ a b, hypot a b = Real.sqrt (a ^ 2 + b ^ 2)) (env : PadEnv ℝ) (c : Canvas ℝ)
    (hc : env.canvas = some c) :
    Real.sqrt (c.width ^ 2 + c.height ^ 2) ≤ maxDist hypot env := by
  rw [maxDist_eq_sqrt hypot hh]
  apply Real.sqrt_le_sqrt
  have hw : c.width ^ 2 ≤ currentWidth env ^ 2 := by
    by_cases h0 : c.width = 0
    · rw [h0]; nlinarith [sq_nonneg (currentWidth env)]
    · rw [currentWidth_of_canvas env c hc h0]
  have hht : c.height ^ 2 ≤ currentHeight env ^ 2 := by
    by_cases h0 : c.height = 0
    · rw [h0]; nlinarith [sq_nonneg (currentHeight env)]
    · rw [currentHeight_of_canvas env c hc h0]
  linarith

/-- Two pucks on the same pad have proximities to an anchor that differ by at most their
distance divided by `maxDist`. -/
theorem prox_lipschitz (hypot : ℝ → ℝ → ℝ) (hh : ∀ a b, hypot a b = Real.sqrt (a ^ 2 + b ^ 2))
    (env : PadEnv ℝ) (p q : AudioPuck ℝ) (c : Point ℝ) (hM : 0 < maxDist hypot env) :
    |prox hypot env p c - prox hypot env q c|
      ≤ Real.sqrt ((p.x - q.x) ^ 2 + (p.y - q.y) ^ 2) / maxDist hypot env := by
  unfold prox
  have h1 : |min (AudioPuck.d hypot p c / maxDist hypot env) 1
      - min (AudioPuck.d hypot q c / maxDist hypot env) 1|
      ≤ |AudioPuck.d hypot p c / maxDist hypot env
        - AudioPuck.d hypot q c / maxDist hypot env| := by
    have := abs_min_sub_min_le_max (AudioPuck.d hypot p c / maxDist hypot env) 1
      (AudioPuck.d hypot q c / maxDist hypot env) 1
    simpa using this
  have h2 : |AudioPuck.d hypot p c / maxDist hypot env
      - AudioPuck.d hypot q c / maxDist hypot env|
      = |AudioPuck.d hypot p c - AudioPuck.d hypot q c| / maxDist hypot env := by
    rw [← sub_div, abs_div, abs_of_pos hM]
  have h3 : |AudioPuck.d hypot p c - AudioPuck.d hypot q c|
      ≤ Real.sqrt ((p.x - q.x) ^ 2 + (p.y - q.y) ^ 2) := by
    unfold AudioPuck.d
    rw [hh, hh]
    have := sqrt_sub_sqrt_le (p.x - c.x) (p.y - c.y) (q.x - c.x) (q.y - c.y)
    rw [show p.x - c.x - (q.x - c.x) = p.x - q.x by ring,
      show p.y - c.y - (q.y - c.y) = p.y - q.y by ring] at this
    exact this
  have h4 : |1 - min (AudioPuck.d hypot p c / maxDist hypot env) 1
      - (1 - min (AudioPuck.d hypot q c / maxDist hypot env) 1)|
      = |min (AudioPuck.d hypot p c / maxDist hypot env) 1
      - min (AudioPuck.d hypot q c / maxDist hypot env) 1| := by
    rw [show (1 - min (AudioPuck.d hypot p c / maxDist hypot env) 1
      - (1 - min (AudioPuck.d hypot q c / maxDist hypot env) 1))
      = -(min (AudioPuck.d hypot p c / maxDist hypot env) 1
      - min (AudioPuck.d hypot q c / maxDist hypot env) 1) by ring, abs_neg]
  rw [h4]
  calc |min (AudioPuck.d hypot p c / maxDist hypot env) 1
        - min (AudioPuck.d hypot q c / maxDist hypot env) 1|
      ≤ |AudioPuck.d hypot p c - AudioPuck.d hypot q c| / maxDist hypot env := by
        rw [← h2]; exact h1
    _ ≤ Real.sqrt ((p.x - q.x) ^ 2 + (p.y - q.y) ^ 2) / maxDist hypot env :=
        div_le_div_of_nonneg_right h3 hM.le

/-- C16: for two Ready pucks `p` and `q` on the same pad with `maxDistance > 0` (`D` being the
code's `maxDist`, or the diagonal of the canvas), each effect output differs between them by at
most `c * dist(p, q) / D`, with `c = 1/2` for `delayWet` and `distortionWet`, 1 for
`reverbWet` and 24 for `eqLowGainDb`: the outputs are Lipschitz, hence continuous, functions
of the position. -/
theorem C16_effects_lipschitz (hypot : ℝ → ℝ → ℝ)
    (hh : ∀ a b, hypot a b = Real.sqrt (a ^ 2 + b ^ 2)) (env : PadEnv ℝ) (p q : AudioPuck ℝ)
    (hpl : p.isLoaded = true) (hpe : p.loadError = false)
    (hql : q.isLoaded = true) (hqe : q.loadError = false) (D : ℝ) (hD : 0 < D)
    (hDM : D = maxDist hypot env ∨
      ∃ c : Canvas ℝ, env.canvas = some c ∧ D = Real.sqrt (c.width ^ 2 + c.height ^ 2)) :
    |(updateEffects hypot env p).delayWet - (updateEffects hypot env q).delayWet|
      ≤ 1 / 2 * Real.sqrt ((p.x - q.x) ^ 2 + (p.y - q.y) ^ 2) / D ∧
    |(updateEffects hypot env p).distortionWet - (updateEffects hypot env q).distortionWet|
      ≤ 1 / 2 * Real.sqrt ((p.x - q.x) ^ 2 + (p.y - q.y) ^ 2) / D ∧
    |(updateEffects hypot env p).reverbWet - (updateEffects hypot env q).reverbWet|
      ≤ 1 * Real.sqrt ((p.x - q.x) ^ 2 + (p.y - q.y) ^ 2) / D ∧
    |(updateEffects hypot env p).eqLow - (updateEffects hypot env q).eqLow|
      ≤ 24 * Real.sqrt ((p.x - q.x) ^ 2 + (p.y - q.y) ^ 2) / D := by
  have hDle : D ≤ maxDist hypot env := by
    rcases hDM with h | ⟨c, hc, h⟩
    · exact h.le
    · rw [h]; exact canvas_diagonal_le_maxDist hypot hh env c hc
  have hM : 0 < maxDist hypot env := lt_of_lt_of_le hD hDle
  have hs : 0 ≤ Real.sqrt ((p.x - q.x) ^ 2 + (p.y - q.y) ^ 2) := Real.sqrt_nonneg _
  have key : ∀ c : Point ℝ, |prox hypot env p c - prox hypot env q c|
      ≤ Real.sqrt ((p.x - q.x) ^ 2 + (p.y - q.y) ^ 2) / D := by
    intro c
    exact (prox_lipschitz hypot hh env p q c hM).trans
      (div_le_div_of_nonneg_left hs hD hDle)
  rw [updateEffects_of_ready hypot env p hpl hpe hM.ne',
    updateEffects_of_ready hypot env q hql hqe hM.ne']
  dsimp only
  have k1 := key env.corners.delay
  have k2 := key env.corners.reverb
  have k3 := key env.corners.distortion
  have k4 := key env.corners.eq
  refine ⟨?_, ?_, ?_, ?_⟩
  · rw [← sub_mul, abs_mul, abs_of_pos (by norm_num : (0 : ℝ) < 1 / 2), mul_div_assoc]
    linarith
  · rw [← sub_mul, abs_mul, abs_of_pos (by norm_num : (0 : ℝ) < 1 / 2), mul_div_assoc]
    linarith
  · rw [one_mul]; exact k2
  · rw [← sub_mul, abs_mul, abs_of_pos (by norm_num : (0 : ℝ) < 24), mul_div_assoc,
      show prox hypot env p env.corners.eq - 1 / 2 - (prox hypot env q env.corners.eq - 1 / 2)
        = prox hypot env p env.corners.eq - prox hypot env q env.corners.eq by ring]
    linarith

/-- Witness of C16: the ready pucks at `(0, 3)` and `(4, 0)` on the 4 by 3 pad. -/
theorem C16_effects_lipschitz_witness :
    (0 : ℝ) < 5 ∧
    (5 : ℝ) = maxDist (fun a b => Real.sqrt (a ^ 2 + b ^ 2)) (smallPad : PadEnv ℝ) ∧
    |(updateEffects (fun a b => Real.sqrt (a ^ 2 + b ^ 2)) smallPad
        (puckAt 0 3 : AudioPuck ℝ)).reverbWet
      - (updateEffects (fun a b => Real.sqrt (a ^ 2 + b ^ 2)) smallPad
        (puckAt 4 0 : AudioPuck ℝ)).reverbWet|
      ≤ 1 * Real.sqrt (((puckAt 0 3 : AudioPuck ℝ).x - (puckAt 4 0 : AudioPuck ℝ).x) ^ 2
          + ((puckAt 0 3 : AudioPuck ℝ).y - (puckAt 4 0 : AudioPuck ℝ).y) ^ 2) / 5 :=
  have hm : (5 : ℝ) = maxDist (fun a b => Real.sqrt (a ^ 2 + b ^ 2)) (smallPad : PadEnv ℝ) := by
    rw [maxDist_eq_sqrt _ (fun _ _ => rfl),
      currentWidth_of_canvas smallPad ({ width := 4, height := 3 } : Canvas ℝ) rfl
        (by show (4 : ℝ) ≠ 0; norm_num),
      currentHeight_of_canvas smallPad ({ width := 4, height := 3 } : Canvas ℝ) rfl
        (by show (3 : ℝ) ≠ 0; norm_num)]
    exact sqrt_three_four.symm
  ⟨by norm_num, hm,
    (C16_effects_lipschitz (fun a b => Real.sqrt (a ^ 2 + b ^ 2)) (fun _ _ => rfl) smallPad
      (puckAt 0 3) (puckAt 4 0) rfl rfl rfl rfl 5 (by norm_num) (Or.inl hm)).2.2.1⟩

/-! ## The delete control (claim C17) -/

theorem updateEffects_deleteButtonRadius (hypot : α → α → α) (env : PadEnv α)
    (p : AudioPuck α) :
    (updateEffects hypot env p).deleteButtonRadius = p.deleteButtonRadius := by
  unfold updateEffects; split_ifs <;> rfl

/-- Every event keeps the radius of the delete control. -/
theorem step_deleteButtonRadius (hypot : α → α → α) (p : AudioPuck α) (e : PuckEvent α) :
    (p.step hypot e).deleteButtonRadius = p.deleteButtonRadius := by
  cases e with
  | drag env x y =>
    show (updateEffects hypot env { p with x := x, y := y }).deleteButtonRadius = _
    rw [updateEffects_deleteButtonRadius]
  | wheel delta => rfl
  | onload r t =>
    show (p.onload r t).deleteButtonRadius = _
    unfold onload; split_ifs <;> rfl
  | onerror => rfl

theorem run_deleteButtonRadius (hypot : α → α → α) (es : List (PuckEvent α))
    (p : AudioPuck α) : (p.run hypot es).deleteButtonRadius = p.deleteButtonRadius := by
  induction es generalizing p with
  | nil => rfl
  | cons e es ih => exact (ih (p.step hypot e)).trans (step_deleteButtonRadius hypot p e)

theorem create_deleteButtonRadius (hypot : α → α → α) (env : PadEnv α) (rx ry : α)
    (index : Nat) (audioUrl filename : String) (isRecorded : Bool) :
    (create hypot env rx ry index audioUrl filename isRecorded).deleteButtonRadius = 8 := by
  unfold create; rw [updateEffects_deleteButtonRadius]

theorem isDeleteHit_iff (p : AudioPuck α) (mx my : α) :
    p.isDeleteHit mx my = true ↔
      (mx - (p.x + p.radius * (707 / 1000))) ^ 2 + (my - (p.y - p.radius * (707 / 1000))) ^ 2
        ≤ p.deleteButtonRadius ^ 2 := by
  unfold isDeleteHit getDeleteButtonPosition
  simp only [decide_eq_true_eq]
  rw [show (mx - (p.x + p.radius * (707 / 1000))) * (mx - (p.x + p.radius * (707 / 1000)))
      + (my - (p.y + -p.radius * (707 / 1000))) * (my - (p.y + -p.radius * (707 / 1000)))
      = (mx - (p.x + p.radius * (707 / 1000))) ^ 2
        + (my - (p.y - p.radius * (707 / 1000))) ^ 2 by ring,
    show p.deleteButtonRadius * p.deleteButtonRadius = p.deleteButtonRadius ^ 2 by ring]

/-- C17 (amended): in every state a puck reaches from its construction, `isDeleteHit(mx, my)`
holds iff `(mx, my)` is within the fixed delete radius 8 (boundary included) of the point
`(x + radius * 0.707, y - radius * 0.707)`, where `0.707` is the code's constant for
`sqrt(2)/2` and `radius` is the current radius of the puck; after `setVolume` it is the radius
derived from the new volume. -/
theorem C17_delete_control_region (hypot : α → α → α) (env : PadEnv α) (rx ry : α)
    (index : Nat) (audioUrl filename : String) (isRecorded : Bool)
    (es : List (PuckEvent α)) (p : AudioPuck α)
    (hp : p = (create hypot env rx ry index audioUrl filename isRecorded).run hypot es)
    (mx my : α) :
    (p.isDeleteHit mx my = true ↔
      (mx - (p.x + p.radius * (707 / 1000))) ^ 2 + (my - (p.y - p.radius * (707 / 1000))) ^ 2
        ≤ 8 ^ 2) ∧
    (∀ delta : α, (p.setVolume delta).isDeleteHit mx my = true ↔
      (mx - (p.x + volumeRadius (p.setVolume delta).volumeValue * (707 / 1000))) ^ 2
        + (my - (p.y - volumeRadius (p.setVolume delta).volumeValue * (707 / 1000))) ^ 2
        ≤ 8 ^ 2) := by
  have h8 : p.deleteButtonRadius = 8 := by
    rw [hp, run_deleteButtonRadius, create_deleteButtonRadius]
  constructor
  · rw [isDeleteHit_iff, h8]
  · intro delta
    rw [isDeleteHit_iff, setVolume_radius]
    have h81 : (p.setVolume delta).deleteButtonRadius = 8 := h8
    have hx : (p.setVolume delta).x = p.x := rfl
    have hy : (p.setVolume delta).y = p.y := rfl
    rw [h81, hx, hy]

/-- Witness of C17: the point `(14, -14)` and the freshly constructed sample puck. -/
theorem C17_delete_control_region_witness :
    samplePuck = (AudioPuck.create sampleHypot samplePad (1 / 2) (1 / 2) 0 "blob:a" "a.wav"
      false).run sampleHypot [] ∧
    (samplePuck.isDeleteHit 14 (-14) = true ↔
      ((14 : ℚ) - (samplePuck.x + samplePuck.radius * (707 / 1000))) ^ 2
        + (-14 - (samplePuck.y - samplePuck.radius * (707 / 1000))) ^ 2 ≤ 8 ^ 2) :=
  ⟨rfl, (C17_delete_control_region sampleHypot samplePad (1 / 2) (1 / 2) 0 "blob:a" "a.wav"
    false [] samplePuck rfl 14 (-14)).1⟩

/-- C17 as stated fails because the offset is `radius * 0.707`, not `radius * sqrt(2)/2`: for
the puck of radius 20 at `(0, 0)` the point `(6.14, -14.14)` is at distance exactly 8 from the
code's centre `(14.14, -14.14)`, so `isDeleteHit` holds, but it is farther than 8 from
`(20 * sqrt(2)/2, -20 * sqrt(2)/2)`. -/
theorem C17_counterexample_sqrt_two :
    (puckAt 0 0 : AudioPuck ℝ).radius = 20 ∧ (puckAt 0 0 : AudioPuck ℝ).deleteButtonRadius = 8 ∧
    (puckAt 0 0 : AudioPuck ℝ).isDeleteHit (307 / 50) (-707 / 50) = true ∧
    ¬ (((307 / 50 : ℝ) - ((puckAt 0 0 : AudioPuck ℝ).x
          + (puckAt 0 0 : AudioPuck ℝ).radius * (Real.sqrt 2 / 2))) ^ 2
        + ((-707 / 50 : ℝ) - ((puckAt 0 0 : AudioPuck ℝ).y
          - (puckAt 0 0 : AudioPuck ℝ).radius * (Real.sqrt 2 / 2))) ^ 2 ≤ 8 ^ 2) := by
  refine ⟨rfl, rfl, ?_, ?_⟩
  · rw [isDeleteHit_iff]
    simp only [puckAt, readyPuck]
    norm_num
  · simp only [puckAt, readyPuck]
    have hs : Real.sqrt 2 < 70711 / 50000 := by
      rw [Real.sqrt_lt' (by norm_num)]; norm_num
    have hsq : Real.sqrt 2 ^ 2 = 2 := Real.sq_sqrt (by norm_num)
    intro h
    nlinarith [hs, hsq]

/-! ## Delete and undo (claim C18) -/

theorem deletePuck_of_getElem? (s : Controller α) (i : Nat) (X : AudioPuck α)
    (hX : s.pucks[i]? = some X) :
    deletePuck i s =
      { s with
        pucks := s.pucks.eraseIdx i
        pendingUndo := some X.dispose
        hoveredPuckIndex := if s.hoveredPuckIndex = some i then none else s.hoveredPuckIndex
        draggingPuckIndex :=
          if s.draggingPuckIndex = some i then none else s.draggingPuckIndex } := by
  unfold deletePuck
  rw [hX]

theorem undoDeletePuck_of_pending (s : Controller α) (X : AudioPuck α)
    (hX : s.pendingUndo = some X) :
    undoDeletePuck s = { s with pucks := s.pucks ++ [X.reattach], pendingUndo := none } := by
  unfold undoDeletePuck
  rw [hX]

theorem undoDeletePuck_of_empty (s : Controller α) (h : s.pendingUndo = none) :
    undoDeletePuck s = s := by
  unfold undoDeletePuck
  rw [h]

/-- C18: with `deletePuck` and `undoDeletePuck` modelled from the spec, for every ordering
that holds the puck `X` at index `i`: deleting `X` (directly, or by a press on the delete
control of the hovered `X`) and undoing at once gives the other pucks in their previous order
followed, in the last (topmost) slot, by a puck with the source reference (`url`, `filename`)
and the position of `X`, and leaves `pendingUndo` empty; and after a second delete (of a puck
`Y`) before the undo, `pendingUndo` holds `Y` only, the undo restores `Y` only, and a further
undo changes nothing, so `X` is not restored. -/
theorem C18_delete_undo_round_trip (s : Controller α) (i : Nat) (X : AudioPuck α)
    (hX : s.pucks[i]? = some X) :
    (undoDeletePuck (deletePuck i s)).pucks = s.pucks.eraseIdx i ++ [X.dispose.reattach] ∧
    (undoDeletePuck (deletePuck i s)).pucks.getLast? = some X.dispose.reattach ∧
    (X.dispose.reattach.url = X.url ∧ X.dispose.reattach.filename = X.filename ∧
      X.dispose.reattach.x = X.x ∧ X.dispose.reattach.y = X.y) ∧
    (undoDeletePuck (deletePuck i s)).pendingUndo = none ∧
    (∀ x y : α, s.hoveredPuckIndex = some i → X.isDeleteHit x y = true →
      (undoDeletePuck (mousedown deletePuck s x y)).pucks
          = s.pucks.eraseIdx i ++ [X.dispose.reattach] ∧
        (undoDeletePuck (mousedown deletePuck s x y)).pendingUndo = none) ∧
    (∀ (j : Nat) (Y : AudioPuck α), (s.pucks.eraseIdx i)[j]? = some Y →
      (deletePuck j (deletePuck i s)).pendingUndo = some Y.dispose ∧
      (undoDeletePuck (deletePuck j (deletePuck i s))).pucks
        = (s.pucks.eraseIdx i).eraseIdx j ++ [Y.dispose.reattach] ∧
      (undoDeletePuck (deletePuck j (deletePuck i s))).pendingUndo = none ∧
      undoDeletePuck (undoDeletePuck (deletePuck j (deletePuck i s)))
        = undoDeletePuck (deletePuck j (deletePuck i s))) := by
  have hd1 := deletePuck_of_getElem? s i X hX
  have hp1 : (deletePuck i s).pendingUndo = some X.dispose := by rw [hd1]
  have hl1 : (deletePuck i s).pucks = s.pucks.eraseIdx i := by rw [hd1]
  have hu1 := undoDeletePuck_of_pending (deletePuck i s) X.dispose hp1
  have hne : s.pucks ≠ [] := by
    intro h
    rw [h] at hX
    simp at hX
  refine ⟨?_, ?_, ⟨rfl, rfl, rfl, rfl⟩, ?_, ?_, ?_⟩
  · rw [hu1]; show (deletePuck i s).pucks ++ _ = _; rw [hl1]
  · rw [hu1]; show ((deletePuck i s).pucks ++ [X.dispose.reattach]).getLast? = _
    simp
  · rw [hu1]
  · intro x y hh hdel
    rw [mousedown_of_deleteHit deletePuck s x y hne i X hh hX hdel]
    have hp3 : ({ deletePuck i s with
        draggingPuckIndex := none
        hoveredPuckIndex := none
        cursor := Cursor.crosshair } : Controller α).pendingUndo = some X.dispose := hp1
    rw [undoDeletePuck_of_pending _ X.dispose hp3]
    refine ⟨?_, rfl⟩
    show (deletePuck i s).pucks ++ _ = _
    rw [hl1]
  · intro j Y hY
    have hY1 : (deletePuck i s).pucks[j]? = some Y := by rw [hl1]; exact hY
    have hd2 := deletePuck_of_getElem? (deletePuck i s) j Y hY1
    have hp2 : (deletePuck j (deletePuck i s)).pendingUndo = some Y.dispose := by rw [hd2]
    have hl2 : (deletePuck j (deletePuck i s)).pucks = (s.pucks.eraseIdx i).eraseIdx j := by
      rw [hd2]; show (deletePuck i s).pucks.eraseIdx j = _; rw [hl1]
    have hu2 := undoDeletePuck_of_pending (deletePuck j (deletePuck i s)) Y.dispose hp2
    refine ⟨hp2, ?_, ?_, ?_⟩
    · rw [hu2]; show (deletePuck j (deletePuck i s)).pucks ++ _ = _; rw [hl2]
    · rw [hu2]
    · rw [hu2]
      exact undoDeletePuck_of_empty _ rfl

/-- Witness of C18: deleting the first of the two sample pucks and undoing puts it back on
top, after the second. -/
theorem C18_delete_undo_round_trip_witness :
    sampleController.pucks[0]? = some (puckAt 0 0) ∧
    (undoDeletePuck (deletePuck 0 sampleController)).pucks
      = [puckAt 10 0, (puckAt 0 0 : AudioPuck ℚ).dispose.reattach] ∧
    (undoDeletePuck (deletePuck 0 sampleController)).pendingUndo = none :=
  have h := C18_delete_undo_round_trip sampleController 0 (puckAt 0 0) rfl
  ⟨rfl, h.1, h.2.2.2.1⟩

/-! ## Playback (claim C19) -/

/-- The puck list after a click on the play/toggle button while the transport is stopped:
`isPlaying` is set on the pucks that are loaded without error, also when there is none. -/
theorem playToggle_start_pucks (s : Controller α) :
    (playToggle s true false).pucks
      = s.pucks.map fun p =>
          if p.isLoaded && !p.loadError then { p with isPlaying := true } else p := by
  unfold playToggle
  simp only [Bool.not_true, Bool.false_eq_true, if_false, Bool.not_false, if_true]
  split_ifs with h
  · rfl
  · have hnone : ∀ p ∈ s.pucks, (p.isLoaded && !p.loadError) = false := by
      intro p hp
      by_contra hc
      apply h
      have hmem : p ∈ s.pucks.filter fun p => p.isLoaded && !p.loadError :=
        List.mem_filter.mpr ⟨hp, by simpa using hc⟩
      exact List.length_pos_of_mem hmem
    show s.pucks = _
    symm
    calc (s.pucks.map fun p =>
          if (p.isLoaded && !p.loadError) = true then { p with isPlaying := true } else p)
        = s.pucks.map id := by
          apply List.map_congr_left
          intro p hp
          rw [if_neg (by rw [hnone p hp]; simp)]
          rfl
      _ = s.pucks := List.map_id _

theorem playToggle_stop_pucks (s : Controller α) :
    (playToggle s true true).pucks = s.pucks.map fun p => { p with isPlaying := false } := by
  unfold playToggle
  simp

theorem playToggle_no_context (s : Controller α) (t : Bool) : playToggle s false t = s := by
  unfold playToggle
  simp

theorem playingAreReady_toggle (s : Controller α) (c t : Bool) (h : PlayingAreReady s) :
    PlayingAreReady (playToggle s c t) := by
  cases c with
  | false => rw [playToggle_no_context]; exact h
  | true =>
    cases t with
    | false =>
      intro q hq hplay
      rw [playToggle_start_pucks] at hq
      obtain ⟨p, hp, hpq⟩ := List.mem_map.mp hq
      by_cases hr : (p.isLoaded && !p.loadError) = true
      · rw [if_pos hr] at hpq
        rw [← hpq]
        simpa using hr
      · rw [if_neg hr] at hpq
        rw [← hpq] at hplay ⊢
        exact h p hp hplay
    | true =>
      intro q hq hplay
      rw [playToggle_stop_pucks] at hq
      obtain ⟨p, _, hpq⟩ := List.mem_map.mp hq
      rw [← hpq] at hplay
      exact absurd hplay (by simp)

theorem playingAreReady_reachable (s0 s : Controller α) (h0 : PlayingAreReady s0)
    (hr : PlayReachable s0 s) : PlayingAreReady s := by
  induction hr with
  | init => exact h0
  | toggle s c t _ ih => exact playingAreReady_toggle s c t ih
  | onload s i p t _ hp ih =>
    intro q hq hplay
    rcases List.mem_or_eq_of_mem_set hq with hmem | heq
    · exact ih q hmem hplay
    · rw [heq]
      unfold onload
      split_ifs <;> exact ⟨rfl, rfl⟩
  | onerror s i p _ hp hl he ih =>
    intro q hq hplay
    rcases List.mem_or_eq_of_mem_set hq with hmem | heq
    · exact ih q hmem hplay
    · rw [heq] at hplay
      have hpm : p ∈ s.pucks := List.mem_iff_getElem?.mpr ⟨i, hp⟩
      have := (ih p hpm hplay).1
      rw [hl] at this
      exact absurd this (by simp)

/-- C19: from a puck list in which no puck is playing, in every state reached by clicks on
the play/toggle button and by the load callbacks (`onload`; `onerror` only on a puck that is
loading), a puck with `isPlaying = true` is Ready (`isLoaded` and not `loadError`); a click
that starts playback sets `isPlaying` on the pucks that are loaded without error and leaves
every other puck as it is, and a click that stops playback sets `isPlaying = false` on every
puck. -/
theorem C19_playing_pucks_are_ready (s0 s : Controller α)
    (h0 : ∀ p ∈ s0.pucks, p.isPlaying = false) (hr : PlayReachable s0 s) :
    (∀ p ∈ s.pucks, p.isPlaying = true → p.isLoaded = true ∧ p.loadError = false) ∧
    (playToggle s true false).pucks
      = (s.pucks.map fun p =>
          if p.isLoaded && !p.loadError then { p with isPlaying := true } else p) ∧
    (∀ (i : Nat) (p q : AudioPuck α), s.pucks[i]? = some p →
      (playToggle s true false).pucks[i]? = some q →
      (p.isLoaded = false ∨ p.loadError = true) → q = p) ∧
    (∀ q ∈ (playToggle s true true).pucks, q.isPlaying = false) := by
  have hinv0 : PlayingAreReady s0 := by
    intro p hp hplay
    rw [h0 p hp] at hplay
    exact absurd hplay (by simp)
  refine ⟨playingAreReady_reachable s0 s hinv0 hr, playToggle_start_pucks s, ?_, ?_⟩
  · intro i p q hp hq hnr
    rw [playToggle_start_pucks, List.getElem?_map, hp] at hq
    have hc : ¬ (p.isLoaded && !p.loadError) = true := by
      rcases hnr with h | h <;> simp [h]
    simp only [Option.map_some', if_neg hc, Option.some.injEq] at hq
    exact hq.symm
  · intro q hq
    rw [playToggle_stop_pucks] at hq
    obtain ⟨p, _, hpq⟩ := List.mem_map.mp hq
    rw [← hpq]

/-- Witness of C19: the two sample pucks, loaded and stopped, after a click that starts
playback. -/
theorem C19_playing_pucks_are_ready_witness :
    (∀ p ∈ sampleController.pucks, p.isPlaying = false) ∧
    PlayReachable sampleController (playToggle sampleController true false) ∧
    (∀ p ∈ (playToggle sampleController true false).pucks,
      p.isPlaying = true → p.isLoaded = true ∧ p.loadError = false) :=
  have h0 : ∀ p ∈ sampleController.pucks, p.isPlaying = false := by
    intro p hp
    simp only [sampleController, List.mem_cons, List.mem_singleton, List.not_mem_nil,
      or_false] at hp
    rcases hp with h | h <;> rw [h] <;> rfl
  have hr : PlayReachable sampleController (playToggle sampleController true false) :=
    PlayReachable.toggle sampleController true false PlayReachable.init
  ⟨h0, hr, (C19_playing_pucks_are_ready sampleController _ h0 hr).1⟩

/-! ## A wheel event of delta 0 (claim C20) -/

/-- C20: in every state a puck reaches from its construction, `setVolume(0)` takes the
decrease branch: the volume becomes `max(-48, old - 2)`, strictly lower unless it was already
-48, and the radius is recomputed from the new volume; the `wheel` listener applies this to
the hovered puck when `deltaY` is 0. -/
theorem C20_zero_delta_decreases (hypot : α → α → α) (env : PadEnv α) (rx ry : α)
    (index : Nat) (audioUrl filename : String) (isRecorded : Bool)
    (es : List (PuckEvent α)) (p : AudioPuck α)
    (hp : p = (create hypot env rx ry index audioUrl filename isRecorded).run hypot es) :
    (p.setVolume 0).volumeValue = max (-48) (p.volumeValue - 2) ∧
    (-48 < p.volumeValue → (p.setVolume 0).volumeValue < p.volumeValue) ∧
    (p.setVolume 0).radius
      = 12 + max 0 (min 1 (((p.setVolume 0).volumeValue + 48) / 54)) * 23 ∧
    (∀ (s : Controller α) (h : Nat), s.hoveredPuckIndex = some h → s.pucks[h]? = some p →
      (wheel s 0).pucks = s.pucks.set h (p.setVolume 0)) := by
  have hinv : VolumeInv p := by
    rw [hp]; exact volumeInv_run hypot es _ (volumeInv_create _ _ _ _ _ _ _ _)
  obtain ⟨⟨hlo, hhi⟩, _⟩ := hinv
  have hv : (p.setVolume 0).volumeValue = max (-48) (p.volumeValue - 2) := by
    rw [setVolume_volumeValue, if_neg (lt_irrefl 0)]
    have h : min 6 (p.volumeValue + -2) = p.volumeValue - 2 := by
      rw [min_eq_right (by linarith)]; ring
    rw [h]
  refine ⟨hv, ?_, ?_, ?_⟩
  · intro hgt
    rw [hv]
    exact max_lt hgt (by linarith)
  · rw [setVolume_radius, volumeRadius_formula]
  · intro s h hh hph
    unfold wheel
    simp only [hh, hph]

/-- Witness of C20: a wheel event of delta 0 on the freshly constructed sample puck lowers its
volume from 0 to -2. -/
theorem C20_zero_delta_decreases_witness :
    samplePuck = (AudioPuck.create sampleHypot samplePad (1 / 2) (1 / 2) 0 "blob:a" "a.wav"
      false).run sampleHypot [] ∧
    (samplePuck.setVolume 0).volumeValue = max (-48) (samplePuck.volumeValue - 2) ∧
    (-48 < samplePuck.volumeValue → (samplePuck.setVolume 0).volumeValue
      < samplePuck.volumeValue) :=
  have h := C20_zero_delta_decreases sampleHypot samplePad (1 / 2) (1 / 2) 0 "blob:a" "a.wav"
    false [] samplePuck rfl
  ⟨rfl, h.1, h.2.1⟩

/-! ## Hover during a drag (claim C21) -/

/-- The puck the drag step of `mousemove` leaves at the pointer contains the pointer. -/
theorem dragTo_isHit (hypot : α → α → α) (env : PadEnv α) (p : AudioPuck α) (x y : α) :
    (updateEffects hypot env { p with x := x, y := y }).x = x ∧
    (updateEffects hypot env { p with x := x, y := y }).y = y ∧
    (updateEffects hypot env { p with x := x, y := y }).isHit x y = true := by
  have hx : (updateEffects hypot env { p with x := x, y := y }).x = x := by
    rw [updateEffects_x]
  have hy : (updateEffects hypot env { p with x := x, y := y }).y = y := by
    rw [updateEffects_y]
  refine ⟨hx, hy, ?_⟩
  unfold isHit
  rw [hx, hy]
  simp only [sub_self, mul_zero, add_zero, decide_eq_true_eq]
  exact mul_self_nonneg _

/-- The puck list after a `mousemove` during the drag of a puck of the list. -/
theorem mousemove_pucks_of_dragging (hypot : α → α → α) (env : PadEnv α) (s : Controller α)
    (x y : α) (d : Nat) (p : AudioPuck α) (hd : s.draggingPuckIndex = some d)
    (hp : s.pucks[d]? = some p) :
    (mousemove hypot env s x y).pucks
      = s.pucks.set d (updateEffects hypot env { p with x := x, y := y }) := by
  rw [mousemove_of_dragging hypot env s x y d p hd hp]

/-- C21 (amended): after a pointer move processed while the puck of valid index `d` is being
dragged, the dragged puck is at the pointer and its body contains the pointer; the resulting
hover is the topmost hit on the positions held before the move, so it is none exactly when no
puck body contained the pointer before the move; when it is not none it identifies a puck whose
body contains the pointer in the resulting state. -/
theorem C21_hover_during_drag (hypot : α → α → α) (env : PadEnv α) (s : Controller α)
    (x y : α) (d : Nat) (p : AudioPuck α) (hd : s.draggingPuckIndex = some d)
    (hp : s.pucks[d]? = some p) :
    (∃ q, (mousemove hypot env s x y).pucks[d]? = some q ∧ q.x = x ∧ q.y = y ∧
      q.isHit x y = true) ∧
    (mousemove hypot env s x y).hoveredPuckIndex = topHit s.pucks x y ∧
    ((mousemove hypot env s x y).hoveredPuckIndex = none ↔
      ∀ q ∈ s.pucks, q.isHit x y = false) ∧
    (∀ h, (mousemove hypot env s x y).hoveredPuckIndex = some h →
      ∃ q, (mousemove hypot env s x y).pucks[h]? = some q ∧ q.isHit x y = true) := by
  have hlt : d < s.pucks.length := lt_length_of_getElem? hp
  have hpucks := mousemove_pucks_of_dragging hypot env s x y d p hd hp
  obtain ⟨hx, hy, hhit⟩ := dragTo_isHit hypot env p x y
  have hdq : (mousemove hypot env s x y).pucks[d]?
      = some (updateEffects hypot env { p with x := x, y := y }) := by
    rw [hpucks, List.getElem?_set_self hlt]
  refine ⟨⟨_, hdq, hx, hy, hhit⟩, mousemove_hovered hypot env s x y, ?_, ?_⟩
  · rw [mousemove_hovered]
    exact topHit_eq_none_iff s.pucks x y
  · intro h hh
    rw [mousemove_hovered] at hh
    obtain ⟨⟨q, hq, hqh⟩, _⟩ := (topHit_eq_some_iff s.pucks x y h).mp hh
    by_cases hhd : h = d
    · subst hhd
      exact ⟨_, hdq, hhit⟩
    · refine ⟨q, ?_, hqh⟩
      rw [hpucks, List.getElem?_set_ne (Ne.symm hhd)]
      exact hq

/-- Witness of C21: the second sample puck is dragged from `(10, 0)` to `(5, 0)`, a point in
the body of both pucks before the move. -/
theorem C21_hover_during_drag_witness :
    draggingController.draggingPuckIndex = some 1 ∧
    draggingController.pucks[1]? = some (puckAt 10 0) ∧
    (mousemove sampleHypot samplePad draggingController 5 0).hoveredPuckIndex
      = topHit draggingController.pucks 5 0 ∧
    (∃ q, (mousemove sampleHypot samplePad draggingController 5 0).pucks[1]? = some q ∧
      q.x = 5 ∧ q.y = 0 ∧ q.isHit 5 0 = true) :=
  have h := C21_hover_during_drag sampleHypot samplePad draggingController 5 0 1 (puckAt 10 0)
    rfl rfl
  ⟨rfl, rfl, h.2.1, h.1⟩

/-- C21 as stated fails when the pointer leaves the old body of the dragged puck in one move:
with ready pucks of radius 20 at `(0, 0)` and `(10, 0)`, the second being dragged, a pointer
move to `(50, 60)` puts the dragged puck at `(50, 60)`, where its body contains the pointer,
and leaves the hover at none, because no body contained `(50, 60)` before the move. -/
theorem C21_counterexample_fast_drag :
    (dragPair : Controller ℝ).draggingPuckIndex = some 1 ∧
    (dragPair : Controller ℝ).pucks[1]? = some (puckAt 10 0) ∧
    (mousemove (fun a b => Real.sqrt (a ^ 2 + b ^ 2)) squarePad (dragPair : Controller ℝ)
      50 60).hoveredPuckIndex = none ∧
    (mousemove (fun a b => Real.sqrt (a ^ 2 + b ^ 2)) squarePad (dragPair : Controller ℝ)
      50 60).draggingPuckIndex = some 1 ∧
    (∃ q, (mousemove (fun a b => Real.sqrt (a ^ 2 + b ^ 2)) squarePad (dragPair : Controller ℝ)
        50 60).pucks[1]? = some q ∧ q.x = 50 ∧ q.y = 60 ∧ q.isHit 50 60 = true) := by
  have hpucks := mousemove_pucks_of_dragging (fun a b => Real.sqrt (a ^ 2 + b ^ 2)) squarePad
    (dragPair : Controller ℝ) 50 60 1 (puckAt 10 0) rfl rfl
  obtain ⟨hx, hy, hhit⟩ := dragTo_isHit (fun a b => Real.sqrt (a ^ 2 + b ^ 2)) squarePad
    (puckAt 10 0 : AudioPuck ℝ) 50 60
  refine ⟨rfl, rfl, ?_, ?_, ⟨_, ?_, hx, hy, hhit⟩⟩
  · rw [mousemove_hovered, topHit_eq_none_iff]
    intro q hq
    have hq1 : q = puckAt 0 0 ∨ q = puckAt 10 0 := by
      simpa [dragPair] using hq
    rcases hq1 with h | h <;> rw [h] <;> simp only [isHit, puckAt, readyPuck] <;> norm_num
  · rw [mousemove_of_dragging (fun a b => Real.sqrt (a ^ 2 + b ^ 2)) squarePad
      (dragPair : Controller ℝ) 50 60 1 (puckAt 10 0) rfl rfl]
    rfl
  · rw [hpucks]
    rfl

/-! ## Validity of the two indices (claim C22) -/

theorem mousemove_dragging (hypot : α → α → α) (env : PadEnv α) (s : Controller α) (x y : α) :
    (mousemove hypot env s x y).draggingPuckIndex = s.draggingPuckIndex := by
  unfold mousemove
  dsimp only
  split_ifs <;> (repeat' split) <;> rfl

theorem mousemove_length (hypot : α → α → α) (env : PadEnv α) (s : Controller α) (x y : α) :
    (mousemove hypot env s x y).pucks.length = s.pucks.length := by
  unfold mousemove
  dsimp only
  split_ifs <;> (repeat' split) <;> simp only [List.length_set]

theorem indexValid_mousedown (dp : Nat → Controller α → Controller α) (s : Controller α)
    (x y : α) (h : IndexValid s) : IndexValid (mousedown dp s x y) := by
  by_cases hne : s.pucks = []
  · unfold mousedown
    rw [if_pos (by rw [hne]; rfl)]
    exact h
  · by_cases hdel : ∃ i p, s.hoveredPuckIndex = some i ∧ s.pucks[i]? = some p ∧
        p.isDeleteHit x y = true
    · obtain ⟨i, p, hi, hp, hd⟩ := hdel
      rw [mousedown_of_deleteHit dp s x y hne i p hi hp hd]
      exact ⟨fun k hk => absurd hk (by simp), fun k hk => absurd hk (by simp)⟩
    · have hno : ∀ i p, s.hoveredPuckIndex = some i → s.pucks[i]? = some p →
          p.isDeleteHit x y = false := by
        intro i p hi hp
        cases hd : p.isDeleteHit x y
        · rfl
        · exact absurd ⟨i, p, hi, hp, hd⟩ hdel
      rw [mousedown_of_no_deleteHit dp s x y hne hno]
      cases ht : topHit s.pucks x y with
      | none => exact ⟨h.1, fun k hk => absurd hk (by simp)⟩
      | some k =>
        obtain ⟨⟨q, hq, _⟩, _⟩ := (topHit_eq_some_iff s.pucks x y k).mp ht
        refine ⟨h.1, fun k1 hk1 => ?_⟩
        have hk : k = k1 := by simpa using hk1
        rw [← hk]
        exact lt_length_of_getElem? hq

theorem indexValid_mousemove (hypot : α → α → α) (env : PadEnv α) (s : Controller α)
    (x y : α) (h : IndexValid s) : IndexValid (mousemove hypot env s x y) := by
  constructor
  · intro k hk
    rw [mousemove_hovered] at hk
    obtain ⟨⟨q, hq, _⟩, _⟩ := (topHit_eq_some_iff s.pucks x y k).mp hk
    rw [mousemove_length]
    exact lt_length_of_getElem? hq
  · intro k hk
    rw [mousemove_dragging] at hk
    rw [mousemove_length]
    exact h.2 k hk

theorem indexValid_mouseup (s : Controller α) (x y : α) (h : IndexValid s) :
    IndexValid (mouseup s x y) := by
  unfold mouseup
  cases hd : s.draggingPuckIndex with
  | none => exact h
  | some d => exact ⟨h.1, fun k hk => absurd hk (by simp)⟩

theorem indexValid_mouseleave (s : Controller α) : IndexValid (mouseleave s) :=
  ⟨fun k hk => absurd hk (by simp [mouseleave]), fun k hk => absurd hk (by simp [mouseleave])⟩

theorem wheel_fields (s : Controller α) (deltaY : α) :
    (wheel s deltaY).pucks.length = s.pucks.length ∧
    (wheel s deltaY).hoveredPuckIndex = s.hoveredPuckIndex ∧
    (wheel s deltaY).draggingPuckIndex = s.draggingPuckIndex := by
  unfold wheel
  cases hh : s.hoveredPuckIndex with
  | none => exact ⟨rfl, hh, rfl⟩
  | some k =>
    dsimp only
    cases hp : s.pucks[k]? with
    | none => exact ⟨rfl, hh, rfl⟩
    | some q => exact ⟨List.length_set _ _ _, rfl, rfl⟩

theorem indexValid_wheel (s : Controller α) (deltaY : α) (h : IndexValid s) :
    IndexValid (wheel s deltaY) := by
  obtain ⟨hl, hh, hd⟩ := wheel_fields s deltaY
  constructor
  · intro k hk
    rw [hh] at hk
    rw [hl]
    exact h.1 k hk
  · intro k hk
    rw [hd] at hk
    rw [hl]
    exact h.2 k hk

theorem indexValid_addPuck (hypot : α → α → α) (env : PadEnv α) (s : Controller α)
    (rx ry : α) (audioUrl filename : String) (isRecorded : Bool) (h : IndexValid s) :
    IndexValid (addPuck hypot env s rx ry audioUrl filename isRecorded) := by
  have hl : (addPuck hypot env s rx ry audioUrl filename isRecorded).pucks.length
      = s.pucks.length + 1 := by
    simp [addPuck]
  constructor
  · intro k hk
    rw [hl]
    exact Nat.lt_succ_of_lt (h.1 k hk)
  · intro k hk
    rw [hl]
    exact Nat.lt_succ_of_lt (h.2 k hk)

theorem indexValid_undo (s : Controller α) (h : IndexValid s) :
    IndexValid (undoDeletePuck s) := by
  unfold undoDeletePuck
  cases hp : s.pendingUndo with
  | none => exact h
  | some q =>
    constructor
    · intro k hk
      have := h.1 k hk
      simp only [List.length_append, List.length_cons, List.length_nil]
      omega
    · intro k hk
      have := h.2 k hk
      simp only [List.length_append, List.length_cons, List.length_nil]
      omega

theorem indexValid_step (dp : Nat → Controller α → Controller α) (hypot : α → α → α)
    (s : Controller α) (e : CanvasEvent α) (h : IndexValid s) :
    IndexValid (s.step dp hypot e) := by
  cases e with
  | mousedown x y => exact indexValid_mousedown dp s x y h
  | mousemove env x y => exact indexValid_mousemove hypot env s x y h
  | mouseup x y => exact indexValid_mouseup s x y h
  | mouseleave => exact indexValid_mouseleave s
  | wheel deltaY => exact indexValid_wheel s deltaY h
  | addPuck env rx ry audioUrl filename isRecorded =>
    exact indexValid_addPuck hypot env s rx ry audioUrl filename isRecorded h
  | undo => exact indexValid_undo s h

theorem indexValid_run (dp : Nat → Controller α → Controller α) (hypot : α → α → α)
    (es : List (CanvasEvent α)) (s : Controller α) (h : IndexValid s) :
    IndexValid (s.run dp hypot es) := by
  induction es generalizing s with
  | nil => exact h
  | cons e es ih => exact ih _ (indexValid_step dp hypot s e h)

/-- C22: from the initial globals (no puck, both indices null), and more generally from any
state in which both indices are valid, every sequence of `mousedown`, `mousemove`, `mouseup`,
`mouseleave` and `wheel` events, puck creations (push) and undos (push) ends in a state where
`hoveredPuckIndex` and `draggingPuckIndex` are each null or an index `i < pucks.length`, so
that `pucks[hoveredPuckIndex]` and `pucks[draggingPuckIndex]` exist.  A delete is the call of
`deletePuck(hoveredPuckIndex)` inside `mousedown`, after which the listener sets both indices
to null; the result holds whatever `deletePuck` does to the globals. -/
theorem C22_indices_valid (dp : Nat → Controller α → Controller α) (hypot : α → α → α)
    (s0 : Controller α) (es : List (CanvasEvent α)) (h0 : IndexValid s0) :
    IndexValid (initialController.run dp hypot es) ∧
    IndexValid (s0.run dp hypot es) ∧
    (∀ h, (s0.run dp hypot es).hoveredPuckIndex = some h →
      h < (s0.run dp hypot es).pucks.length ∧ ∃ p, (s0.run dp hypot es).pucks[h]? = some p) ∧
    (∀ d, (s0.run dp hypot es).draggingPuckIndex = some d →
      d < (s0.run dp hypot es).pucks.length ∧ ∃ p, (s0.run dp hypot es).pucks[d]? = some p) := by
  have hinit : IndexValid (initialController : Controller α) :=
    ⟨fun k hk => absurd hk (by simp [initialController]),
      fun k hk => absurd hk (by simp [initialController])⟩
  have hv := indexValid_run dp hypot es s0 h0
  refine ⟨indexValid_run dp hypot es _ hinit, hv, ?_, ?_⟩
  · intro h hh
    have hlt := hv.1 h hh
    exact ⟨hlt, _, List.getElem?_eq_getElem hlt⟩
  · intro d hd
    have hlt := hv.2 d hd
    exact ⟨hlt, _, List.getElem?_eq_getElem hlt⟩

/-- Witness of C22: the sample events, with the `deletePuck` modelled from the spec, from the
two sample pucks with the second one hovered. -/
theorem C22_indices_valid_witness :
    IndexValid sampleController ∧
    IndexValid (sampleController.run deletePuck sampleHypot sampleCanvasEvents) ∧
    IndexValid ((initialController : Controller ℚ).run deletePuck sampleHypot
      sampleCanvasEvents) :=
  have h0 : IndexValid sampleController :=
    ⟨fun k hk => by
        have : k = 1 := by simpa [sampleController] using hk.symm
        rw [this]; decide,
      fun k hk => absurd hk (by simp [sampleController])⟩
  have h := C22_indices_valid deletePuck sampleHypot sampleController sampleCanvasEvents h0
  ⟨h0, h.2.1, h.1⟩

end Flooper
